import Mathlib

/-!
Verification development for the `artifyme` backend
(`artifyme-api`: Express + Prisma + Redis image-style-transfer SaaS).

The relevant TypeScript modules are shallowly embedded as pure Lean
functions over explicit state:

* `src/services/redis.service.ts` — cache / pub-sub / job-status relay
  (`setCache`, `getCache`, `publishEvent`, `addTransformationJob`,
  `updateTransformationStatus`, `getTransformationStatus`).
* `src/routes/transform.routes.ts` — `POST /api/transform/start`.
* `src/routes/webhook.routes.ts` — Stripe / Asaas / N8N webhooks.
* `src/routes/admin.routes.ts` — `POST /api/admin/users/:userId/credits`.
* `src/routes/user.routes.ts` — `GET /api/users/me`, `DELETE /api/users/me`.
* `src/routes/auth.routes.ts` — `POST /api/auth/logout`.
* `src/services/password.reset.service.ts` and
  `src/services/account.reactivation.service.ts` — token confirmation.
* `src/services/keycloak.admin.service.ts` — `keycloakDisableAndLogoutUser`.
* `src/middleware/keycloak.ts` — `keycloakMiddleware`.

JSON objects stored in the Redis cache are modelled as association lists
of string fields (`Obj`); the JavaScript object-spread `\x7b...a, ...b\x7d`
is `objSpread a b` (later keys win).  Machine-level details that the
claims do not touch (network transport, JSON text encoding, ioredis
connection management) are abstracted away; external services (Keycloak,
Stripe API, SendGrid, N8N, bcrypt) appear as explicit oracle parameters
or recorded effects.
-/

namespace Artifyme

/-! ## JSON-like objects (flat string records, as serialized to Redis) -/

/-- A JSON object with string-valued fields, as an association list.
JavaScript object-literal/spread semantics: the *last* occurrence of a
key wins; `objSpread` keeps lists duplicate-free by construction. -/
abbrev Obj := List (String × String)

/-- Field lookup (`o[k]` on the parsed JSON object). -/
def Obj.get (o : Obj) (k : String) : Option String :=
  (o.find? (fun p => p.1 == k)).map (·.2)

/-- Whether the object has field `k`. -/
def Obj.hasKey (o : Obj) (k : String) : Bool :=
  (o.find? (fun p => p.1 == k)).isSome

/-- JavaScript spread `\x7b ...a, ...b \x7d`: fields of `b` override
fields of `a`. -/
def objSpread (a b : Obj) : Obj :=
  a.filter (fun p => !(Obj.hasKey b p.1)) ++ b

/-! ## Redis state (`src/services/redis.service.ts`) -/

/-- One cached key: the value and the `expireSeconds` argument the entry
was last written with (`setex` when `some`, plain `set` when `none`). -/
structure CacheEntry where
  key : String
  value : Obj
  expireSeconds : Option Nat
deriving DecidableEq

/-- State of the Redis layer: the key-value cache, the
`transformation:queue` list, and the log of published pub/sub messages
(in publication order). -/
structure RedisState where
  cache : List CacheEntry
  queue : List Obj
  published : List (String × Obj)
deriving DecidableEq

def RedisState.empty : RedisState := ⟨[], [], []⟩

/-- `setCache(key, value, expireSeconds?)`: JSON-serialize and store,
with `setex` when an expiry is given.  Overwrites any previous entry for
the key. -/
def setCache (s : RedisState) (key : String) (value : Obj)
    (expireSeconds : Option Nat) : RedisState :=
  { s with cache :=
      ⟨key, value, expireSeconds⟩ :: s.cache.filter (fun e => !(e.key == key)) }

/-- The stored entry for a key, if present. -/
def getCacheEntry (s : RedisState) (key : String) : Option CacheEntry :=
  s.cache.find? (fun e => e.key == key)

/-- `getCache(key)`: the parsed cached value, or `null` (`none`). -/
def getCache (s : RedisState) (key : String) : Option Obj :=
  (getCacheEntry s key).map (·.value)

/-- `publishEvent(channel, data)`: publish a JSON message on a pub/sub
channel. -/
def publishEvent (s : RedisState) (channel : String) (data : Obj) :
    RedisState :=
  { s with published := s.published ++ [(channel, data)] }

/-- The most recent message published on `channel`, if any. -/
def lastPublished (s : RedisState) (channel : String) : Option Obj :=
  ((s.published.filter (fun e => e.1 == channel)).getLast?).map (·.2)

/-! ## Transformation job relay -/

/-- The `job` argument of `addTransformationJob`. -/
structure TransformJob where
  id : String
  userId : String
  imageUrl : String
  style : String
deriving DecidableEq

/-- The JSON object `\x7b id, userId, imageUrl, style \x7d`. -/
def TransformJob.toObj (j : TransformJob) : Obj :=
  [("id", j.id), ("userId", j.userId), ("imageUrl", j.imageUrl),
   ("style", j.style)]

/-- `addTransformationJob(job)`: `lpush` onto `transformation:queue`,
then cache `\x7b status: 'pending', ...job \x7d` under
`transformation:<id>` with a 3600-second expiry. -/
def addTransformationJob (s : RedisState) (job : TransformJob) :
    RedisState :=
  let s1 := { s with queue := job.toObj :: s.queue }
  setCache s1 ("transformation:" ++ job.id)
    (objSpread [("status", "pending")] job.toObj) (some 3600)

/-- The optional `result` argument of `updateTransformationStatus`
(`none` fields are absent keys). -/
structure TransformResult where
  outputUrl : Option String
  error : Option String
deriving DecidableEq

/-- The fields contributed by spreading `result`. -/
def TransformResult.toObj (r : TransformResult) : Obj :=
  (match r.outputUrl with
   | some u => [("outputUrl", u)]
   | none => []) ++
  (match r.error with
   | some e => [("error", e)]
   | none => [])

/-- The message `\x7b jobId, userId: existing.userId, status, ...result \x7d`
published on `transformation:complete`. -/
def updateMessage (jobId : String) (existing : Obj) (status : String)
    (result : TransformResult) : Obj :=
  objSpread
    ([("jobId", jobId)] ++
     (match existing.get "userId" with
      | some u => [("userId", u)]
      | none => []) ++
     [("status", status)])
    result.toObj

/-- `updateTransformationStatus(jobId, status, result?)`: when a cached
record exists, rewrite the key with `\x7b ...existing, status, ...result \x7d`
(3600-second expiry) and publish on `transformation:complete`; otherwise
do nothing. -/
def updateTransformationStatus (s : RedisState) (jobId : String)
    (status : String) (result : TransformResult) : RedisState :=
  match getCache s ("transformation:" ++ jobId) with
  | none => s
  | some existing =>
      let merged := objSpread (objSpread existing [("status", status)])
        result.toObj
      let s1 := setCache s ("transformation:" ++ jobId) merged (some 3600)
      publishEvent s1 "transformation:complete"
        (updateMessage jobId existing status result)

/-- `getTransformationStatus(jobId)`: the cached record or `null`. -/
def getTransformationStatus (s : RedisState) (jobId : String) :
    Option Obj :=
  getCache s ("transformation:" ++ jobId)

/-! ## Basic lemmas about objects and the cache -/

theorem find?_filter_not_hasKey (a b : Obj) (k : String) :
    (a.filter (fun p => !(Obj.hasKey b p.1))).find? (fun p => p.1 == k) =
    if Obj.hasKey b k then none else a.find? (fun p => p.1 == k) := by
  induction a with
  | nil => by_cases hb : Obj.hasKey b k <;> simp [hb]
  | cons q a ih =>
    obtain ⟨qk, qv⟩ := q
    by_cases hqk : qk = k
    · subst hqk
      by_cases hb : Obj.hasKey b qk
      · simp [List.filter_cons, hb, ih, List.find?]
      · simp [List.filter_cons, hb, List.find?]
    · have hqk' : (qk == k) = false := by simp [hqk]
      by_cases hb : Obj.hasKey b qk
      · simp [List.filter_cons, hb, ih, List.find?, hqk']
      · simp [List.filter_cons, hb, ih, List.find?, hqk']

/-- Field lookup on a spread: fields of `b` win, then fields of `a`. -/
theorem Obj.get_objSpread (a b : Obj) (k : String) :
    (objSpread a b).get k = (b.get k).or (a.get k) := by
  unfold objSpread Obj.get
  rw [List.find?_append, find?_filter_not_hasKey]
  by_cases hb : Obj.hasKey b k
  · simp only [hb, if_true]
    unfold Obj.hasKey at hb
    cases hfb : b.find? (fun p => p.1 == k) with
    | none => rw [hfb] at hb; simp at hb
    | some q => simp [Option.or]
  · simp only [hb, if_false]
    unfold Obj.hasKey at hb
    cases hfb : b.find? (fun p => p.1 == k) with
    | none =>
      cases a.find? (fun p => p.1 == k) <;> simp [Option.or]
    | some q => rw [hfb] at hb; simp at hb

theorem Obj.get_nil (k : String) : Obj.get [] k = none := rfl

theorem Obj.get_cons (k' k v : String) (o : Obj) :
    Obj.get ((k, v) :: o) k' = if k = k' then some v else o.get k' := by
  by_cases h : k = k'
  · simp [Obj.get, List.find?, h]
  · simp [Obj.get, List.find?, h, beq_false_of_ne h]

theorem getCacheEntry_setCache_self (s : RedisState) (k : String) (v : Obj)
    (t : Option Nat) : getCacheEntry (setCache s k v t) k = some ⟨k, v, t⟩ := by
  simp [getCacheEntry, setCache, List.find?]

theorem getCacheEntry_publishEvent (s : RedisState) (c : String) (d : Obj)
    (k : String) : getCacheEntry (publishEvent s c d) k = getCacheEntry s k :=
  rfl

theorem published_publishEvent_setCache (s : RedisState) (k : String)
    (v : Obj) (t : Option Nat) (c : String) (d : Obj) :
    (publishEvent (setCache s k v t) c d).published = s.published ++ [(c, d)] :=
  rfl

/-! ## Concrete fixtures for the job-status relay -/

def jobFixture : TransformJob := ⟨"j1", "u1", "img", "cartoon"⟩

def relayState0 : RedisState := addTransformationJob RedisState.empty jobFixture

def relayState1 : RedisState :=
  updateTransformationStatus relayState0 "j1" "completed" ⟨some "out", none⟩

/-! ## Claim C1 -/

/-- C1 (counterexample): `updateTransformationStatus` does **not** publish
the merged cached record on `transformation:complete`.  After caching job
`j1` (style `cartoon`) and updating it to `completed`, the cached merged
record carries the `style` and `imageUrl` fields, but the published
message only carries `jobId`, `userId`, `status` and the result fields —
it is not equal to the merged record. -/
theorem updateTransformationStatus_message_ne_merged_record :
    getTransformationStatus relayState1 "j1" =
      some [("id", "j1"), ("userId", "u1"), ("imageUrl", "img"),
            ("style", "cartoon"), ("status", "completed"),
            ("outputUrl", "out")] ∧
    lastPublished relayState1 "transformation:complete" =
      some [("jobId", "j1"), ("userId", "u1"), ("status", "completed"),
            ("outputUrl", "out")] ∧
    lastPublished relayState1 "transformation:complete" ≠
      getTransformationStatus relayState1 "j1" ∧
    Obj.get [("jobId", "j1"), ("userId", "u1"), ("status", "completed"),
        ("outputUrl", "out")] "style" = none ∧
    Obj.get [("id", "j1"), ("userId", "u1"), ("imageUrl", "img"),
        ("style", "cartoon"), ("status", "completed"),
        ("outputUrl", "out")] "style" = some "cartoon" := by
  refine ⟨rfl, rfl, ?_, rfl, rfl⟩
  decide

/-- C1 (amended): for every job id, `updateTransformationStatus` merges
the new status and result fields into the existing cached record (new
fields overwriting old ones on conflict), rewrites the cache entry, and
publishes on `transformation:complete` a message carrying the job id,
the cached record's `userId`, the new status, and the result fields;
`getTransformationStatus` returns the cached record when one exists and
`none` when none exists; when no cached record exists,
`updateTransformationStatus` writes nothing and publishes nothing. -/
theorem updateTransformationStatus_spec :
    (∀ s jobId status result,
        getCache s ("transformation:" ++ jobId) = none →
        updateTransformationStatus s jobId status result = s) ∧
    (∀ s jobId status result ex,
        getCache s ("transformation:" ++ jobId) = some ex →
        ∃ merged,
          getCacheEntry (updateTransformationStatus s jobId status result)
              ("transformation:" ++ jobId) =
            some ⟨"transformation:" ++ jobId, merged, some 3600⟩ ∧
          (∀ k, merged.get k =
            (result.toObj.get k).or
              (if k = "status" then some status else ex.get k)) ∧
          (updateTransformationStatus s jobId status result).published =
            s.published ++
              [("transformation:complete",
                updateMessage jobId ex status result)]) ∧
    (∀ jobId ex status result k,
        (updateMessage jobId ex status result).get k =
          (result.toObj.get k).or
            (if k = "jobId" then some jobId
             else if k = "userId" then ex.get "userId"
             else if k = "status" then some status
             else none)) ∧
    (∀ s jobId v, getCache s ("transformation:" ++ jobId) = some v →
        getTransformationStatus s jobId = some v) ∧
    (∀ s jobId, getCache s ("transformation:" ++ jobId) = none →
        getTransformationStatus s jobId = none) := by
  refine ⟨?_, ?_, ?_, ?_, ?_⟩
  · intro s jobId status result h
    simp only [updateTransformationStatus, h]
  · intro s jobId status result ex h
    refine ⟨objSpread (objSpread ex [("status", status)]) result.toObj,
      ?_, ?_, ?_⟩
    · simp only [updateTransformationStatus, h]
      rw [getCacheEntry_publishEvent]
      exact getCacheEntry_setCache_self ..
    · intro k
      rw [Obj.get_objSpread, Obj.get_objSpread, Obj.get_cons]
      by_cases hk : k = "status"
      · subst hk
        rw [if_pos rfl, if_pos rfl]
        simp
      · rw [if_neg (fun h => hk h.symm), if_neg hk, Obj.get_nil]
        simp
    · simp only [updateTransformationStatus, h]
      exact published_publishEvent_setCache ..
  · intro jobId ex status result k
    cases hu : Obj.get ex "userId" with
    | none =>
      simp only [updateMessage, hu, List.cons_append, List.nil_append]
      rw [Obj.get_objSpread, Obj.get_cons, Obj.get_cons]
      congr 1
      by_cases h1 : k = "jobId"
      · subst h1
        rw [if_pos rfl, if_pos rfl]
      · rw [if_neg (fun h => h1 h.symm), if_neg h1]
        by_cases h2 : k = "userId"
        · subst h2
          rw [if_pos rfl, if_neg (by decide), Obj.get_nil]
        · rw [if_neg h2]
          by_cases h3 : k = "status"
          · subst h3
            rw [if_pos rfl, if_pos rfl]
          · rw [if_neg (fun h => h3 h.symm), if_neg h3, Obj.get_nil]
    | some u =>
      simp only [updateMessage, hu, List.cons_append, List.nil_append]
      rw [Obj.get_objSpread, Obj.get_cons, Obj.get_cons, Obj.get_cons]
      congr 1
      by_cases h1 : k = "jobId"
      · subst h1
        rw [if_pos rfl, if_pos rfl]
      · rw [if_neg (fun h => h1 h.symm), if_neg h1]
        by_cases h2 : k = "userId"
        · subst h2
          rw [if_pos rfl, if_pos rfl]
        · rw [if_neg (fun h => h2 h.symm), if_neg h2]
          by_cases h3 : k = "status"
          · subst h3
            rw [if_pos rfl, if_pos rfl]
          · rw [if_neg (fun h => h3 h.symm), if_neg h3, Obj.get_nil]
  · intro s jobId v h
    exact h
  · intro s jobId h
    exact h

/-- C1 (witness): the amended specification applied to the concrete
state holding job `j1`. -/
theorem updateTransformationStatus_spec_witness :
    getCache relayState0 ("transformation:" ++ "j1") =
      some [("status", "pending"), ("id", "j1"), ("userId", "u1"),
            ("imageUrl", "img"), ("style", "cartoon")] ∧
    (∃ merged,
      getCacheEntry
          (updateTransformationStatus relayState0 "j1" "completed"
            ⟨some "out", none⟩) ("transformation:" ++ "j1") =
        some ⟨"transformation:" ++ "j1", merged, some 3600⟩ ∧
      (∀ k, merged.get k =
        ((TransformResult.mk (some "out") none).toObj.get k).or
          (if k = "status" then some "completed"
           else Obj.get [("status", "pending"), ("id", "j1"),
              ("userId", "u1"), ("imageUrl", "img"),
              ("style", "cartoon")] k)) ∧
      (updateTransformationStatus relayState0 "j1" "completed"
          ⟨some "out", none⟩).published =
        relayState0.published ++
          [("transformation:complete",
            updateMessage "j1"
              [("status", "pending"), ("id", "j1"), ("userId", "u1"),
               ("imageUrl", "img"), ("style", "cartoon")]
              "completed" ⟨some "out", none⟩)]) :=
  ⟨rfl, updateTransformationStatus_spec.2.1 relayState0 "j1" "completed"
    ⟨some "out", none⟩ _ rfl⟩

/-! ## Claim C7 -/

/-- C7 (confirmed): `addTransformationJob` stores one status record
keyed `transformation:<id>` whose `status` field is `pending`, written
with a 3600-second expiry, and every `updateTransformationStatus`
rewrite of an existing record is also written with a 3600-second
expiry. -/
theorem addTransformationJob_pending_and_ttl :
    (∀ s job,
        getCacheEntry (addTransformationJob s job)
            ("transformation:" ++ job.id) =
          some ⟨"transformation:" ++ job.id,
                objSpread [("status", "pending")] job.toObj, some 3600⟩) ∧
    (∀ s job, ∃ v,
        getTransformationStatus (addTransformationJob s job) job.id =
          some v ∧ v.get "status" = some "pending") ∧
    (∀ s jobId status result ex,
        getCache s ("transformation:" ++ jobId) = some ex →
        (getCacheEntry (updateTransformationStatus s jobId status result)
            ("transformation:" ++ jobId)).map (·.expireSeconds) =
          some (some 3600)) := by
  refine ⟨?_, ?_, ?_⟩
  · intro s job
    simp only [addTransformationJob]
    exact getCacheEntry_setCache_self ..
  · intro s job
    refine ⟨objSpread [("status", "pending")] job.toObj, ?_, ?_⟩
    · simp only [getTransformationStatus, getCache, addTransformationJob,
        getCacheEntry_setCache_self]
      rfl
    · rw [Obj.get_objSpread]
      rfl
  · intro s jobId status result ex h
    simp only [updateTransformationStatus, h]
    rw [getCacheEntry_publishEvent, getCacheEntry_setCache_self]
    rfl

/-- C7 (witness): the expiry specification applied to the concrete state
holding job `j1`. -/
theorem addTransformationJob_pending_and_ttl_witness :
    getCache relayState0 ("transformation:" ++ "j1") =
      some [("status", "pending"), ("id", "j1"), ("userId", "u1"),
            ("imageUrl", "img"), ("style", "cartoon")] ∧
    (getCacheEntry
        (updateTransformationStatus relayState0 "j1" "completed"
          ⟨some "out", none⟩) ("transformation:" ++ "j1")).map
      (·.expireSeconds) = some (some 3600) :=
  ⟨rfl, addTransformationJob_pending_and_ttl.2.2 relayState0 "j1"
    "completed" ⟨some "out", none⟩ _ rfl⟩

/-! ## Relational store (Prisma models, `prisma/schema` as used by the routes) -/

/-- A `User` row.  `credits` is the integer credit balance; `deletedAt`
is the soft-delete timestamp. -/
structure User where
  id : String
  keycloakId : String
  email : String
  name : Option String
  credits : Int
  deletedAt : Option Nat
deriving DecidableEq

/-- An `Order` row.  `metadataCredits` is the `credits` entry of the
JSON `metadata` column; the only writer (`POST /api/payments/credits/purchase`)
stores the fixed package sizes 10/50/150, hence a `Nat`. -/
structure Order where
  id : String
  userId : String
  type : String
  status : String
  metadataCredits : Option Nat
deriving DecidableEq

/-- A `Transformation` row (the fields the embedded routes touch). -/
structure Transformation where
  id : String
  userId : String
  style : String
  status : String
  inputImageData : Option String
  outputImageUrl : Option String
  errorMessage : Option String
  completedAt : Option Nat
deriving DecidableEq

/-- A `Subscription` row (the fields the embedded routes touch). -/
structure SubscriptionRow where
  id : String
  userId : String
  status : String
  stripeSubscriptionId : Option String
  cancelAtPeriodEnd : Bool
  currentPeriodEnd : Nat
deriving DecidableEq

/-- A `PasswordResetToken` / `AccountReactivationToken` row: single-use,
bcrypt-hashed secret, absolute expiry. -/
structure TokenRecord where
  id : String
  userId : String
  tokenHash : String
  expiresAt : Nat
  usedAt : Option Nat
deriving DecidableEq

/-- The relational database state. -/
structure DB where
  users : List User
  orders : List Order
  transformations : List Transformation
  subscriptions : List SubscriptionRow
  passwordResetTokens : List TokenRecord
  accountReactivationTokens : List TokenRecord
deriving DecidableEq

/-- `prisma.user.findUnique(\x7b where: \x7b keycloakId \x7d \x7d)`. -/
def DB.findUserByKeycloakId (db : DB) (keycloakId : String) : Option User :=
  db.users.find? (fun u => u.keycloakId == keycloakId)

/-- `prisma.user.findUnique(\x7b where: \x7b id \x7d \x7d)`. -/
def DB.findUserById (db : DB) (id : String) : Option User :=
  db.users.find? (fun u => u.id == id)

/-- `prisma.order.findUnique(\x7b where: \x7b id \x7d \x7d)`. -/
def DB.findOrderById (db : DB) (id : String) : Option Order :=
  db.orders.find? (fun o => o.id == id)

/-- Prisma `include: \x7b subscription \x7d` on a user: the user's
one-to-one `Subscription` row. -/
def DB.userSubscription (db : DB) (u : User) : Option SubscriptionRow :=
  db.subscriptions.find? (fun s => s.userId == u.id)

/-- `user.subscription?.status === 'active'`. -/
def DB.hasActiveSubscription (db : DB) (u : User) : Bool :=
  match db.userSubscription u with
  | some s => s.status == "active"
  | none => false

/-- Apply `f` to the user row with the given `id`
(`prisma.user.update(\x7b where: \x7b id \x7d \x7d)`; ids are unique in the
real store). -/
def DB.updateUserById (db : DB) (id : String) (f : User → User) : DB :=
  { db with users := db.users.map (fun u => if u.id == id then f u else u) }

/-- The credit balance of the user row with the given `id`, if any. -/
def DB.creditsOf (db : DB) (id : String) : Option Int :=
  (db.findUserById id).map (·.credits)

/-! ## `POST /api/transform/start` (`src/routes/transform.routes.ts`) -/

/-- A request to `POST /api/transform/start` after authentication:
whether a multipart `image` file is attached, the raw `style` field, the
Keycloak user id from the bearer token, and the uploaded image data. -/
structure TransformStartRequest where
  hasFile : Bool
  style : String
  userId : String
  imageBase64 : String

/-- The ten style labels accepted by `transformRequestSchema`. -/
def transformStyles : List String :=
  ["cartoon", "graffiti", "watercolor", "sketch", "pop-art", "neon",
   "anime", "renaissance", "impressionist", "minimalist"]

/-- Whether `transformRequestSchema.parse` accepts the style. -/
def validStyle (s : String) : Bool := transformStyles.contains s

/-- An HTTP response: status plus the `code` field of the JSON body when
one is set. -/
structure ApiResponse where
  status : Nat
  code : Option String
deriving DecidableEq

structure TransformStartResult where
  resp : ApiResponse
  db : DB
  rs : RedisState

/-- The `POST /api/transform/start` handler: reject a missing file or an
invalid style with 400, a missing user with 404, and a user with
neither credits nor an active subscription with 402 `NO_CREDITS`;
otherwise create the `Transformation` row, enqueue the Redis job,
trigger the external N8N workflow (no database effect), and decrement
one credit unless the user is on an active subscription. -/
def transformStart (db : DB) (rs : RedisState) (req : TransformStartRequest)
    (jobId : String) : TransformStartResult :=
  if !req.hasFile then ⟨⟨400, none⟩, db, rs⟩
  else if !(validStyle req.style) then ⟨⟨400, none⟩, db, rs⟩
  else
    match db.findUserByKeycloakId req.userId with
    | none => ⟨⟨404, none⟩, db, rs⟩
    | some user =>
      let hasActiveSubscription := db.hasActiveSubscription user
      let hasCredits : Bool := decide (0 < user.credits)
      if !hasActiveSubscription && !hasCredits then
        ⟨⟨402, some "NO_CREDITS"⟩, db, rs⟩
      else
        let db1 := { db with transformations := db.transformations ++
          [⟨jobId, user.id, req.style, "pending", some req.imageBase64,
            none, none, none⟩] }
        let rs1 := addTransformationJob rs
          ⟨jobId, req.userId, req.imageBase64, req.style⟩
        let db2 := if !hasActiveSubscription && hasCredits then
            db1.updateUserById user.id
              (fun u => { u with credits := u.credits - 1 })
          else db1
        ⟨⟨202, none⟩, db2, rs1⟩

/-! ## `POST /api/admin/users/:userId/credits` (`src/routes/admin.routes.ts`) -/

structure AdminCreditsResult where
  resp : ApiResponse
  db : DB

/-- The admin add-credits handler.  `amount` is `none` when the body's
`amount` is not a number (`typeof amount !== 'number'`).  Non-positive
amounts are rejected with 400 before any update; a missing user makes
`prisma.user.update` throw, answered by the catch-all 500. -/
def adminAddCredits (db : DB) (userId : String) (amount : Option Int) :
    AdminCreditsResult :=
  match amount with
  | none => ⟨⟨400, none⟩, db⟩
  | some a =>
    if a ≤ 0 then ⟨⟨400, none⟩, db⟩
    else
      match db.findUserById userId with
      | none => ⟨⟨500, none⟩, db⟩
      | some _ =>
        ⟨⟨200, none⟩, db.updateUserById userId
          (fun u => { u with credits := u.credits + a })⟩

/-! ## Webhook handlers (`src/routes/webhook.routes.ts`) -/

/-- Outcome of a webhook helper: the resulting state and whether the
helper completed without throwing (`prisma.*.update` throws when its
where-clause matches no row, so `ok = false` carries the effects applied
before the throw). -/
structure HandlerResult where
  db : DB
  rs : RedisState
  ok : Bool

/-- `handleStripeCheckoutComplete(session)`: mark the order referenced by
`session.metadata.orderId` completed; for a credits order, increment the
owner's balance by `order.metadata.credits || 0` and publish a
`notification` event. -/
def handleStripeCheckoutComplete (db : DB) (rs : RedisState)
    (metadataOrderId : Option String) : HandlerResult :=
  match metadataOrderId with
  | none => ⟨db, rs, true⟩
  | some orderId =>
    match db.findOrderById orderId with
    | none => ⟨db, rs, false⟩
    | some order =>
      let db1 := { db with orders := db.orders.map (fun o =>
        if o.id == orderId then { o with status := "completed" } else o) }
      if order.type == "credits" then
        let credits : Nat := order.metadataCredits.getD 0
        match db1.findUserById order.userId with
        | none => ⟨db1, rs, false⟩
        | some owner =>
          ⟨db1.updateUserById order.userId
              (fun u => { u with credits := u.credits + credits }),
           publishEvent rs "notification"
             [("userId", owner.keycloakId), ("type", "credits_added"),
              ("message", toString credits ++
                " créditos adicionados à sua conta!")],
           true⟩
      else ⟨db1, rs, true⟩

/-- `handleAsaasPaymentConfirmed(payment)`: same flow as the Stripe
checkout handler, keyed by `payment.externalReference`. -/
def handleAsaasPaymentConfirmed (db : DB) (rs : RedisState)
    (externalReference : Option String) : HandlerResult :=
  match externalReference with
  | none => ⟨db, rs, true⟩
  | some orderId =>
    match db.findOrderById orderId with
    | none => ⟨db, rs, false⟩
    | some order =>
      let db1 := { db with orders := db.orders.map (fun o =>
        if o.id == orderId then { o with status := "completed" } else o) }
      if order.type == "credits" then
        let credits : Nat := order.metadataCredits.getD 0
        match db1.findUserById order.userId with
        | none => ⟨db1, rs, false⟩
        | some owner =>
          ⟨db1.updateUserById order.userId
              (fun u => { u with credits := u.credits + credits }),
           publishEvent rs "notification"
             [("userId", owner.keycloakId), ("type", "credits_added"),
              ("message", toString credits ++
                " créditos adicionados à sua conta!")],
           true⟩
      else ⟨db1, rs, true⟩

/-- `handleAsaasPaymentFailed(payment)`: mark the referenced order
failed. -/
def handleAsaasPaymentFailed (db : DB)
    (externalReference : Option String) : DB × Bool :=
  match externalReference with
  | none => (db, true)
  | some orderId =>
    match db.findOrderById orderId with
    | none => (db, false)
    | some _ =>
      ({ db with orders := db.orders.map (fun o =>
          if o.id == orderId then { o with status := "failed" } else o) },
       true)

/-- `handleStripeInvoicePaid(invoice)`: `updateMany` on the rows with the
given Stripe subscription id (no-throw). -/
def handleStripeInvoicePaid (db : DB) (subscriptionId : Option String)
    (periodEnd : Nat) : DB :=
  match subscriptionId with
  | none => db
  | some sid =>
    { db with subscriptions := db.subscriptions.map (fun s =>
        if s.stripeSubscriptionId == some sid then
          { s with status := "active", currentPeriodEnd := periodEnd }
        else s) }

/-- `handleStripeSubscriptionUpdated(subscription)`. -/
def handleStripeSubscriptionUpdated (db : DB) (sid : String)
    (active : Bool) (cancelAtPeriodEnd : Bool) (periodEnd : Nat) : DB :=
  { db with subscriptions := db.subscriptions.map (fun s =>
      if s.stripeSubscriptionId == some sid then
        { s with status := if active then "active" else "inactive",
                 cancelAtPeriodEnd := cancelAtPeriodEnd,
                 currentPeriodEnd := periodEnd }
      else s) }

/-- `handleStripeSubscriptionDeleted(subscription)`. -/
def handleStripeSubscriptionDeleted (db : DB) (sid : String) : DB :=
  { db with subscriptions := db.subscriptions.map (fun s =>
      if s.stripeSubscriptionId == some sid then
        { s with status := "cancelled" }
      else s) }

/-- `handleAsaasSubscriptionActive(subscription)`: `update` on the row
with id `subscription.externalReference` (throws when absent). -/
def handleAsaasSubscriptionActive (db : DB)
    (externalReference : Option String) : DB × Bool :=
  match externalReference with
  | none => (db, true)
  | some sid =>
    match db.subscriptions.find? (fun s => s.id == sid) with
    | none => (db, false)
    | some _ =>
      ({ db with subscriptions := db.subscriptions.map (fun s =>
          if s.id == sid then { s with status := "active" } else s) },
       true)

/-- `handleAsaasSubscriptionCancelled(subscription)`. -/
def handleAsaasSubscriptionCancelled (db : DB)
    (externalReference : Option String) : DB × Bool :=
  match externalReference with
  | none => (db, true)
  | some sid =>
    match db.subscriptions.find? (fun s => s.id == sid) with
    | none => (db, false)
    | some _ =>
      ({ db with subscriptions := db.subscriptions.map (fun s =>
          if s.id == sid then { s with status := "cancelled" } else s) },
       true)

/-- A Stripe event, as dispatched by the `switch (event.type)` in
`POST /api/webhooks/stripe`. -/
inductive StripeEvent where
  | checkoutSessionCompleted (metadataOrderId : Option String)
  | invoicePaid (subscriptionId : Option String) (periodEnd : Nat)
  | subscriptionUpdated (sid : String) (active : Bool)
      (cancelAtPeriodEnd : Bool) (periodEnd : Nat)
  | subscriptionDeleted (sid : String)
  | other (eventType : String)

structure WebhookResult where
  status : Nat
  db : DB
  rs : RedisState

/-- `POST /api/webhooks/stripe`: `stripe.webhooks.constructEvent` throws
on an invalid signature, answered with 400 before any handler runs;
otherwise the event is dispatched, and a throw inside a handler is
caught and answered with 500. -/
def stripeWebhook (db : DB) (rs : RedisState) (sigValid : Bool)
    (event : StripeEvent) : WebhookResult :=
  if !sigValid then ⟨400, db, rs⟩
  else
    match event with
    | .checkoutSessionCompleted oid =>
      let r := handleStripeCheckoutComplete db rs oid
      if r.ok then ⟨200, r.db, r.rs⟩ else ⟨500, r.db, r.rs⟩
    | .invoicePaid sid pe => ⟨200, handleStripeInvoicePaid db sid pe, rs⟩
    | .subscriptionUpdated i a c p =>
      ⟨200, handleStripeSubscriptionUpdated db i a c p, rs⟩
    | .subscriptionDeleted i =>
      ⟨200, handleStripeSubscriptionDeleted db i, rs⟩
    | .other _ => ⟨200, db, rs⟩

/-- `POST /api/webhooks/asaas`: requests whose `asaas-access-token`
header differs from the configured webhook token are rejected with 401
before any handler runs; otherwise the event name is dispatched. -/
def asaasWebhook (db : DB) (rs : RedisState)
    (accessTokenHeader : Option String) (webhookToken : String)
    (event : String) (paymentExternalReference : Option String)
    (subscriptionExternalReference : Option String) : WebhookResult :=
  if accessTokenHeader ≠ some webhookToken then ⟨401, db, rs⟩
  else if event == "PAYMENT_CONFIRMED" || event == "PAYMENT_RECEIVED" then
    let r := handleAsaasPaymentConfirmed db rs paymentExternalReference
    if r.ok then ⟨200, r.db, r.rs⟩ else ⟨500, r.db, r.rs⟩
  else if event == "PAYMENT_OVERDUE" || event == "PAYMENT_DELETED" then
    let r := handleAsaasPaymentFailed db paymentExternalReference
    if r.2 then ⟨200, r.1, rs⟩ else ⟨500, r.1, rs⟩
  else if event == "SUBSCRIPTION_CREATED" || event == "SUBSCRIPTION_RENEWED" then
    let r := handleAsaasSubscriptionActive db subscriptionExternalReference
    if r.2 then ⟨200, r.1, rs⟩ else ⟨500, r.1, rs⟩
  else if event == "SUBSCRIPTION_DELETED" || event == "SUBSCRIPTION_INACTIVE" then
    let r := handleAsaasSubscriptionCancelled db subscriptionExternalReference
    if r.2 then ⟨200, r.1, rs⟩ else ⟨500, r.1, rs⟩
  else ⟨200, db, rs⟩

/-- `verifyN8NSignature(body, signature)`: `true` when no webhook secret
is configured; otherwise compare the `x-n8n-signature` header against
the expected HMAC hex digest (abstracted as `expectedSignature`) with
`crypto.timingSafeEqual`, which throws (`.error`) when the buffers have
different lengths. -/
def verifyN8NSignature (secretConfigured : Bool)
    (expectedSignature : String) (signature : Option String) :
    Except Unit Bool :=
  if !secretConfigured then .ok true
  else
    let sig := signature.getD ""
    if sig.length ≠ expectedSignature.length then .error ()
    else .ok (sig == expectedSignature)

/-- `POST /api/webhooks/n8n/transformation-complete`: a failed signature
comparison is answered with 401; a thrown length-mismatch (and a missing
`Transformation` row) is caught and answered with 500; otherwise the row
is updated and the Redis status record rewritten/published. -/
def n8nTransformationComplete (db : DB) (rs : RedisState)
    (secretConfigured : Bool) (expectedSignature : String)
    (signature : Option String) (jobId : String) (statusSuccess : Bool)
    (outputUrl : Option String) (error : Option String) (now : Nat) :
    WebhookResult :=
  match verifyN8NSignature secretConfigured expectedSignature signature with
  | .error _ => ⟨500, db, rs⟩
  | .ok false => ⟨401, db, rs⟩
  | .ok true =>
    match db.transformations.find? (fun t => t.id == jobId) with
    | none => ⟨500, db, rs⟩
    | some _ =>
      let newStatus := if statusSuccess then "completed" else "failed"
      let db1 := { db with transformations := db.transformations.map (fun t =>
          if t.id == jobId then
            { t with status := newStatus,
                     outputImageUrl := (match outputUrl with
                       | some u => some u
                       | none => t.outputImageUrl),
                     errorMessage := (match error with
                       | some e => some e
                       | none => t.errorMessage),
                     completedAt := some now }
          else t) }
      let rs1 := updateTransformationStatus rs jobId newStatus
        ⟨outputUrl, error⟩
      ⟨200, db1, rs1⟩

/-! ## Lemmas about row updates -/

/-- `find?` commutes with a row update that does not change the searched
predicate. -/
theorem find?_map_pred_invariant {α : Type} (l : List α) (f : α → α)
    (p : α → Bool) (hp : ∀ a, p (f a) = p a) :
    (l.map f).find? p = (l.find? p).map f := by
  induction l with
  | nil => rfl
  | cons a t ih =>
    simp only [List.map_cons, List.find?, hp]
    cases hpa : p a <;> simp [ih]

/-- In a list of users with pairwise-distinct ids (a primary-key
constraint), two members with equal ids are the same row. -/
theorem user_eq_of_mem_of_id_eq (l : List User)
    (hnd : (l.map (·.id)).Nodup) (u v : User) (hu : u ∈ l) (hv : v ∈ l)
    (hid : u.id = v.id) : u = v :=
  List.inj_on_of_nodup_map hnd hu hv hid

/-- `creditsOf` after a per-id user update. -/
theorem creditsOf_updateUserById (db : DB) (target : String)
    (f : User → User) (hid : ∀ u, (f u).id = u.id) (uid : String) :
    (db.updateUserById target f).creditsOf uid =
      (db.findUserById uid).map
        (fun u => if u.id == target then (f u).credits else u.credits) := by
  unfold DB.creditsOf DB.findUserById DB.updateUserById
  rw [find?_map_pred_invariant _ _ _
    (fun u => by by_cases h : u.id == target <;> simp [h, hid])]
  cases db.users.find? (fun u => u.id == uid) with
  | none => rfl
  | some u =>
    by_cases h : u.id = target <;> simp [h]

/-! ## Claim C3 -/

/-- C3 (confirmed): for a request carrying an image file and a valid
style, `POST /api/transform/start` responds 402 with code `NO_CREDITS`
exactly when the requesting user exists and has neither an active
subscription nor a strictly positive credit balance, and in that case
the database (no transformation row, no credit change) and the Redis
state (no queued job) are left unchanged. -/
theorem transformStart_402_iff :
    ∀ db rs req jobId, req.hasFile = true → validStyle req.style = true →
    (((transformStart db rs req jobId).resp.status = 402 ∧
      (transformStart db rs req jobId).resp.code = some "NO_CREDITS") ↔
      (∃ u, db.findUserByKeycloakId req.userId = some u ∧
        db.hasActiveSubscription u = false ∧ u.credits ≤ 0)) ∧
    ((transformStart db rs req jobId).resp.status = 402 →
      (transformStart db rs req jobId).db = db ∧
      (transformStart db rs req jobId).rs = rs) := by
  intro db rs req jobId hf hs
  cases hfind : db.findUserByKeycloakId req.userId with
  | none =>
    constructor
    · simp [transformStart, hf, hs, hfind]
    · simp [transformStart, hf, hs, hfind]
  | some u =>
    by_cases hsub : db.hasActiveSubscription u = true
    · constructor
      · simp [transformStart, hf, hs, hfind, hsub]
      · simp [transformStart, hf, hs, hfind, hsub]
    · have hsub' : db.hasActiveSubscription u = false :=
        Bool.eq_false_iff.mpr hsub
      by_cases hcred : 0 < u.credits
      · constructor
        · simp [transformStart, hf, hs, hfind, hsub', hcred]
        · simp [transformStart, hf, hs, hfind, hsub', hcred]
      · have hle : u.credits ≤ 0 := le_of_not_lt hcred
        constructor
        · simp [transformStart, hf, hs, hfind, hsub', hcred]
          exact hle
        · simp [transformStart, hf, hs, hfind, hsub', hcred]

/-- Fixture for C3: a user with zero credits and no subscription. -/
def brokeUserDB : DB :=
  ⟨[⟨"u1", "kc1", "a@b.c", none, 0, none⟩], [], [], [], [], []⟩

/-- C3 (witness): the 402 characterization applied to a concrete broke
user. -/
theorem transformStart_402_iff_witness :
    ((true : Bool) = true ∧ validStyle "cartoon" = true) ∧
    ((((transformStart brokeUserDB RedisState.empty
          ⟨true, "cartoon", "kc1", "img"⟩ "j1").resp.status = 402 ∧
       (transformStart brokeUserDB RedisState.empty
          ⟨true, "cartoon", "kc1", "img"⟩ "j1").resp.code =
         some "NO_CREDITS") ↔
      (∃ u, brokeUserDB.findUserByKeycloakId "kc1" = some u ∧
        brokeUserDB.hasActiveSubscription u = false ∧ u.credits ≤ 0)) ∧
     ((transformStart brokeUserDB RedisState.empty
          ⟨true, "cartoon", "kc1", "img"⟩ "j1").resp.status = 402 →
       (transformStart brokeUserDB RedisState.empty
          ⟨true, "cartoon", "kc1", "img"⟩ "j1").db = brokeUserDB ∧
       (transformStart brokeUserDB RedisState.empty
          ⟨true, "cartoon", "kc1", "img"⟩ "j1").rs = RedisState.empty)) :=
  ⟨⟨rfl, rfl⟩, transformStart_402_iff brokeUserDB RedisState.empty
    ⟨true, "cartoon", "kc1", "img"⟩ "j1" rfl rfl⟩

/-! ## Claim C2 -/

/-- A per-id row update never changes which rows an id-based predicate
selects. -/
theorem userUpdate_id_pred (g : User → User) (hg : ∀ v, (g v).id = v.id)
    (target uid : String) :
    ∀ v : User,
      ((if v.id == target then g v else v).id == uid) = (v.id == uid) := by
  intro v
  by_cases hvt : (v.id == target) = true
  · rw [if_pos hvt, hg]
  · rw [if_neg hvt]

/-- `POST /api/transform/start` either leaves the user table unchanged
or decrements exactly the requesting user's row by one, and the latter
only with no active subscription and a strictly positive balance. -/
theorem transformStart_users_cases (db : DB) (rs : RedisState)
    (req : TransformStartRequest) (jobId : String) :
    (transformStart db rs req jobId).db.users = db.users ∨
    ∃ u, db.findUserByKeycloakId req.userId = some u ∧
      db.hasActiveSubscription u = false ∧ 0 < u.credits ∧
      (transformStart db rs req jobId).db.users =
        db.users.map (fun v => if v.id == u.id then
          { v with credits := v.credits - 1 } else v) := by
  by_cases hf : req.hasFile = true
  case neg =>
    left
    have hf' : req.hasFile = false := Bool.eq_false_iff.mpr hf
    simp [transformStart, hf']
  case pos =>
  by_cases hs : validStyle req.style = true
  case neg =>
    left
    have hs' : validStyle req.style = false := Bool.eq_false_iff.mpr hs
    simp [transformStart, hf, hs']
  case pos =>
  cases hfind : db.findUserByKeycloakId req.userId with
  | none => left; simp [transformStart, hf, hs, hfind]
  | some u =>
    by_cases hsub : db.hasActiveSubscription u = true
    · left; simp [transformStart, hf, hs, hfind, hsub]
    · have hsub' : db.hasActiveSubscription u = false :=
        Bool.eq_false_iff.mpr hsub
      by_cases hcred : 0 < u.credits
      · right
        exact ⟨u, rfl, hsub', hcred,
          by simp [transformStart, hf, hs, hfind, hsub', hcred,
            DB.updateUserById]⟩
      · left; simp [transformStart, hf, hs, hfind, hsub', hcred]

/-- Membership in a user list after a per-id credit increment by a
non-negative amount: every row descends from a row with the same id and
at most its credits. -/
theorem mem_map_credits_add (l : List User) (target : String) (c : Nat)
    (u' : User)
    (h : u' ∈ l.map (fun u => if u.id == target then
        { u with credits := u.credits + (c : Int) } else u)) :
    ∃ u, u ∈ l ∧ u.id = u'.id ∧ u.credits ≤ u'.credits := by
  obtain ⟨u, hu, rfl⟩ := List.mem_map.mp h
  by_cases ht : (u.id == target) = true
  · refine ⟨u, hu, by simp [ht], by simp [ht]⟩
  · have ht' : (u.id == target) = false := Bool.eq_false_iff.mpr ht
    exact ⟨u, hu, by simp [ht'], by simp [ht']⟩

/-- `handleStripeCheckoutComplete` never decreases any user's credits. -/
theorem handleStripeCheckoutComplete_users_mono (db : DB)
    (rs : RedisState) (oid : Option String) (u' : User)
    (h : u' ∈ (handleStripeCheckoutComplete db rs oid).db.users) :
    ∃ u, u ∈ db.users ∧ u.id = u'.id ∧ u.credits ≤ u'.credits := by
  cases oid with
  | none => exact ⟨u', h, rfl, le_refl _⟩
  | some orderId =>
    cases hfo : db.findOrderById orderId with
    | none =>
      simp only [handleStripeCheckoutComplete, hfo] at h
      exact ⟨u', h, rfl, le_refl _⟩
    | some order =>
      simp only [handleStripeCheckoutComplete, hfo] at h
      by_cases ht : (order.type == "credits") = true
      · rw [if_pos ht] at h
        cases hfu : db.findUserById order.userId with
        | none =>
          rw [show ({ db with orders := db.orders.map (fun o =>
              if o.id == orderId then { o with status := "completed" }
              else o) } : DB).findUserById order.userId =
              db.findUserById order.userId from rfl, hfu] at h
          exact ⟨u', h, rfl, le_refl _⟩
        | some owner =>
          rw [show ({ db with orders := db.orders.map (fun o =>
              if o.id == orderId then { o with status := "completed" }
              else o) } : DB).findUserById order.userId =
              db.findUserById order.userId from rfl, hfu] at h
          exact mem_map_credits_add db.users order.userId
            (order.metadataCredits.getD 0) u' h
      · have ht' : (order.type == "credits") = false :=
          Bool.eq_false_iff.mpr ht
        rw [if_neg (by simp [ht'])] at h
        exact ⟨u', h, rfl, le_refl _⟩

/-- `handleAsaasPaymentConfirmed` never decreases any user's credits. -/
theorem handleAsaasPaymentConfirmed_users_mono (db : DB)
    (rs : RedisState) (ref : Option String) (u' : User)
    (h : u' ∈ (handleAsaasPaymentConfirmed db rs ref).db.users) :
    ∃ u, u ∈ db.users ∧ u.id = u'.id ∧ u.credits ≤ u'.credits := by
  cases ref with
  | none => exact ⟨u', h, rfl, le_refl _⟩
  | some orderId =>
    cases hfo : db.findOrderById orderId with
    | none =>
      simp only [handleAsaasPaymentConfirmed, hfo] at h
      exact ⟨u', h, rfl, le_refl _⟩
    | some order =>
      simp only [handleAsaasPaymentConfirmed, hfo] at h
      by_cases ht : (order.type == "credits") = true
      · rw [if_pos ht] at h
        cases hfu : db.findUserById order.userId with
        | none =>
          rw [show ({ db with orders := db.orders.map (fun o =>
              if o.id == orderId then { o with status := "completed" }
              else o) } : DB).findUserById order.userId =
              db.findUserById order.userId from rfl, hfu] at h
          exact ⟨u', h, rfl, le_refl _⟩
        | some owner =>
          rw [show ({ db with orders := db.orders.map (fun o =>
              if o.id == orderId then { o with status := "completed" }
              else o) } : DB).findUserById order.userId =
              db.findUserById order.userId from rfl, hfu] at h
          exact mem_map_credits_add db.users order.userId
            (order.metadataCredits.getD 0) u' h
      · have ht' : (order.type == "credits") = false :=
          Bool.eq_false_iff.mpr ht
        rw [if_neg (by simp [ht'])] at h
        exact ⟨u', h, rfl, le_refl _⟩

/-- C2 (confirmed): every credit-changing operation preserves
`credits ≥ 0`: `POST /api/transform/start` decrements exactly 1 and only
from the requesting user when that user has no active subscription and a
strictly positive balance (so a table of non-negative balances stays
non-negative, given unique ids); the payment-confirmed webhook handlers
only ever increase balances; and the admin add-credits endpoint rejects
a missing or non-positive amount with 400 before updating, and preserves
non-negativity when it does update. -/
theorem credits_nonneg_invariant :
    (∀ db rs req jobId, ((db.users.map (·.id)).Nodup) →
      (∀ u, u ∈ db.users → 0 ≤ u.credits) →
      ∀ u', u' ∈ (transformStart db rs req jobId).db.users →
        0 ≤ u'.credits) ∧
    (∀ db rs req jobId uid,
      (transformStart db rs req jobId).db.creditsOf uid ≠
        db.creditsOf uid →
      ∃ u, db.findUserByKeycloakId req.userId = some u ∧ uid = u.id ∧
        db.hasActiveSubscription u = false ∧ 0 < u.credits ∧
        (transformStart db rs req jobId).db.creditsOf uid =
          (db.creditsOf uid).map (fun c => c - 1)) ∧
    (∀ db rs oid u',
      u' ∈ (handleStripeCheckoutComplete db rs oid).db.users →
      ∃ u, u ∈ db.users ∧ u.id = u'.id ∧ u.credits ≤ u'.credits) ∧
    (∀ db rs ref u',
      u' ∈ (handleAsaasPaymentConfirmed db rs ref).db.users →
      ∃ u, u ∈ db.users ∧ u.id = u'.id ∧ u.credits ≤ u'.credits) ∧
    (∀ db uid a, a ≤ 0 →
      (adminAddCredits db uid (some a)).resp.status = 400 ∧
      (adminAddCredits db uid (some a)).db = db) ∧
    (∀ db uid, (adminAddCredits db uid none).resp.status = 400 ∧
      (adminAddCredits db uid none).db = db) ∧
    (∀ db uid amount u', (∀ u, u ∈ db.users → 0 ≤ u.credits) →
      u' ∈ (adminAddCredits db uid amount).db.users → 0 ≤ u'.credits) := by
  refine ⟨?_, ?_, handleStripeCheckoutComplete_users_mono,
    handleAsaasPaymentConfirmed_users_mono, ?_, ?_, ?_⟩
  · intro db rs req jobId hnd hinv u' hu'
    rcases transformStart_users_cases db rs req jobId with
      hsame | ⟨u, hfind, hsub, hcred, husers⟩
    · rw [hsame] at hu'
      exact hinv u' hu'
    · rw [husers] at hu'
      obtain ⟨v, hv, rfl⟩ := List.mem_map.mp hu'
      by_cases hvid : (v.id == u.id) = true
      · have humem : u ∈ db.users := List.mem_of_find?_eq_some hfind
        have hvu : v = u :=
          user_eq_of_mem_of_id_eq db.users hnd v u hv humem
            (eq_of_beq hvid)
        simp only [hvid, if_true]
        rw [hvu]
        omega
      · have hvid' : (v.id == u.id) = false := Bool.eq_false_iff.mpr hvid
        simp only [hvid', if_false]
        exact hinv v hv
  · intro db rs req jobId uid hne
    rcases transformStart_users_cases db rs req jobId with
      hsame | ⟨u, hfind, hsub, hcred, husers⟩
    · exact absurd (by
        unfold DB.creditsOf DB.findUserById
        rw [hsame]) hne
    · have hnew : (transformStart db rs req jobId).db.creditsOf uid =
        ((db.users.find? (fun v => v.id == uid)).map (fun v =>
          if v.id == u.id then { v with credits := v.credits - 1 }
          else v)).map (·.credits) := by
        unfold DB.creditsOf DB.findUserById
        rw [husers, find?_map_pred_invariant _ _ _
          (userUpdate_id_pred (fun v => { v with credits := v.credits - 1 })
            (fun v => rfl) u.id uid)]
      cases hw : db.users.find? (fun v => v.id == uid) with
      | none =>
        exact absurd (by
          rw [hnew, hw]
          unfold DB.creditsOf DB.findUserById
          rw [hw]
          rfl) hne
      | some w =>
        have hold : db.creditsOf uid = some w.credits := by
          unfold DB.creditsOf DB.findUserById
          rw [hw]
          rfl
        have h1 : w.id = uid := by
          have := List.find?_some hw
          simpa using this
        by_cases hwid : (w.id == u.id) = true
        · have huid : uid = u.id := h1 ▸ eq_of_beq hwid
          refine ⟨u, hfind, huid, hsub, hcred, ?_⟩
          rw [hnew, hw, hold]
          simp only [Option.map]
          rw [if_pos hwid]
        · exact absurd (by
            rw [hnew, hw, hold]
            simp only [Option.map]
            rw [if_neg hwid]) hne
  · intro db uid a hle
    constructor <;> simp [adminAddCredits, hle]
  · intro db uid
    constructor <;> simp [adminAddCredits]
  · intro db uid amount u' hinv hu'
    cases amount with
    | none => exact hinv u' hu'
    | some a =>
      by_cases hle : a ≤ 0
      · rw [show (adminAddCredits db uid (some a)).db = db from by
          simp [adminAddCredits, hle]] at hu'
        exact hinv u' hu'
      · cases hfu : db.findUserById uid with
        | none =>
          rw [show (adminAddCredits db uid (some a)).db = db from by
            simp [adminAddCredits, hle, hfu]] at hu'
          exact hinv u' hu'
        | some w =>
          rw [show (adminAddCredits db uid (some a)).db.users =
              db.users.map (fun v => if v.id == uid then
                { v with credits := v.credits + a } else v) from by
            simp [adminAddCredits, hle, hfu, DB.updateUserById]] at hu'
          obtain ⟨v, hv, rfl⟩ := List.mem_map.mp hu'
          by_cases hvid : (v.id == uid) = true
          · simp only [hvid, if_true]
            have := hinv v hv
            omega
          · have hvid' : (v.id == uid) = false := Bool.eq_false_iff.mpr hvid
            simp only [hvid', if_false]
            exact hinv v hv

/-- Fixture for C2: one user with three credits. -/
def creditsDB : DB :=
  ⟨[⟨"u1", "kc1", "a@b.c", none, 3, none⟩], [], [], [], [], []⟩

/-- C2 (witness): the invariant theorem applied to a concrete table and
to a concrete rejected admin request. -/
theorem credits_nonneg_invariant_witness :
    ((creditsDB.users.map (·.id)).Nodup ∧
      (∀ u, u ∈ creditsDB.users → 0 ≤ u.credits)) ∧
    (∀ u', u' ∈ (transformStart creditsDB RedisState.empty
        ⟨true, "cartoon", "kc1", "img"⟩ "j1").db.users → 0 ≤ u'.credits) ∧
    ((-5 : Int) ≤ 0 ∧
      (adminAddCredits creditsDB "u1" (some (-5))).resp.status = 400 ∧
      (adminAddCredits creditsDB "u1" (some (-5))).db = creditsDB) :=
  ⟨⟨by decide, by decide⟩,
   credits_nonneg_invariant.1 creditsDB RedisState.empty
     ⟨true, "cartoon", "kc1", "img"⟩ "j1" (by decide) (by decide),
   by decide,
   (credits_nonneg_invariant.2.2.2.2.1 creditsDB "u1" (-5)
     (by decide)).1,
   (credits_nonneg_invariant.2.2.2.2.1 creditsDB "u1" (-5)
     (by decide)).2⟩

/-! ## Claim C4 -/

/-- A per-id order-status update never changes which rows an id-based
predicate selects. -/
theorem orderUpdate_id_pred (st oid oid' : String) :
    ∀ o : Order,
      ((if o.id == oid then { o with status := st } else o).id == oid') =
        (o.id == oid') := by
  intro o
  by_cases h : (o.id == oid) = true
  · rw [if_pos h]
  · rw [if_neg h]

/-- `findOrderById` after the completed/failed status rewrite. -/
theorem findOrderById_map_setStatus (db : DB) (oid oid' st : String) :
    ({ db with orders := db.orders.map (fun o =>
        if o.id == oid then { o with status := st } else o) } : DB
      ).findOrderById oid' =
      (db.findOrderById oid').map (fun o =>
        if o.id == oid then { o with status := st } else o) := by
  unfold DB.findOrderById
  exact find?_map_pred_invariant _ _ _ (orderUpdate_id_pred st oid oid')

/-- `findUserById` after a per-id user update. -/
theorem findUserById_updateUserById (db : DB) (target : String)
    (f : User → User) (hid : ∀ u, (f u).id = u.id) (uid : String) :
    (db.updateUserById target f).findUserById uid =
      (db.findUserById uid).map
        (fun u => if u.id == target then f u else u) := by
  unfold DB.findUserById DB.updateUserById
  exact find?_map_pred_invariant _ _ _ (userUpdate_id_pred f hid target uid)

/-- Effects of one successful credits delivery through
`handleStripeCheckoutComplete`: the order is marked completed and the
owner's balance grows by the order's credit amount. -/
theorem handleStripeCheckoutComplete_increments (db : DB)
    (rs : RedisState) (oid : String) (order : Order) (u : User)
    (horder : db.findOrderById oid = some order)
    (htype : order.type = "credits")
    (huser : db.findUserById order.userId = some u) :
    (handleStripeCheckoutComplete db rs (some oid)).ok = true ∧
    (handleStripeCheckoutComplete db rs (some oid)).db.findOrderById oid =
      some { order with status := "completed" } ∧
    (handleStripeCheckoutComplete db rs (some oid)).db.findUserById
        order.userId =
      some { u with credits :=
        u.credits + (order.metadataCredits.getD 0 : Nat) } ∧
    (handleStripeCheckoutComplete db rs (some oid)).db.creditsOf
        order.userId =
      some (u.credits + (order.metadataCredits.getD 0 : Nat)) := by
  have hoid : (order.id == oid) = true := by
    simpa using List.find?_some horder
  have huid : (u.id == order.userId) = true := by
    simpa using List.find?_some huser
  have htypeb : (order.type == "credits") = true := by simp [htype]
  have hscrut : ({ db with orders := db.orders.map (fun o =>
      if o.id == oid then { o with status := "completed" } else o) } : DB
      ).findUserById order.userId = db.findUserById order.userId := rfl
  refine ⟨?_, ?_, ?_, ?_⟩ <;>
    simp only [handleStripeCheckoutComplete, horder, htypeb, if_true,
      hscrut, huser]
  · rw [show (DB.updateUserById { db with orders := db.orders.map (fun o =>
        if o.id == oid then { o with status := "completed" } else o) }
        order.userId (fun v => { v with credits :=
          v.credits + (order.metadataCredits.getD 0 : Nat) })
        ).findOrderById oid =
      ({ db with orders := db.orders.map (fun o =>
        if o.id == oid then { o with status := "completed" } else o) } : DB
        ).findOrderById oid from rfl]
    rw [findOrderById_map_setStatus, horder]
    simp only [Option.map, if_pos hoid]
  · rw [findUserById_updateUserById _ order.userId
        (fun v => { v with credits :=
          v.credits + (order.metadataCredits.getD 0 : Nat) })
        (fun v => rfl) order.userId, hscrut, huser]
    simp only [Option.map, if_pos huid]
  · unfold DB.creditsOf
    rw [findUserById_updateUserById _ order.userId
        (fun v => { v with credits :=
          v.credits + (order.metadataCredits.getD 0 : Nat) })
        (fun v => rfl) order.userId, hscrut, huser]
    simp only [Option.map, if_pos huid]

/-- Effects of one successful credits delivery through
`handleAsaasPaymentConfirmed` (same flow as the Stripe handler). -/
theorem handleAsaasPaymentConfirmed_increments (db : DB)
    (rs : RedisState) (oid : String) (order : Order) (u : User)
    (horder : db.findOrderById oid = some order)
    (htype : order.type = "credits")
    (huser : db.findUserById order.userId = some u) :
    (handleAsaasPaymentConfirmed db rs (some oid)).ok = true ∧
    (handleAsaasPaymentConfirmed db rs (some oid)).db.findOrderById oid =
      some { order with status := "completed" } ∧
    (handleAsaasPaymentConfirmed db rs (some oid)).db.findUserById
        order.userId =
      some { u with credits :=
        u.credits + (order.metadataCredits.getD 0 : Nat) } ∧
    (handleAsaasPaymentConfirmed db rs (some oid)).db.creditsOf
        order.userId =
      some (u.credits + (order.metadataCredits.getD 0 : Nat)) := by
  have hoid : (order.id == oid) = true := by
    simpa using List.find?_some horder
  have huid : (u.id == order.userId) = true := by
    simpa using List.find?_some huser
  have htypeb : (order.type == "credits") = true := by simp [htype]
  have hscrut : ({ db with orders := db.orders.map (fun o =>
      if o.id == oid then { o with status := "completed" } else o) } : DB
      ).findUserById order.userId = db.findUserById order.userId := rfl
  refine ⟨?_, ?_, ?_, ?_⟩ <;>
    simp only [handleAsaasPaymentConfirmed, horder, htypeb, if_true,
      hscrut, huser]
  · rw [show (DB.updateUserById { db with orders := db.orders.map (fun o =>
        if o.id == oid then { o with status := "completed" } else o) }
        order.userId (fun v => { v with credits :=
          v.credits + (order.metadataCredits.getD 0 : Nat) })
        ).findOrderById oid =
      ({ db with orders := db.orders.map (fun o =>
        if o.id == oid then { o with status := "completed" } else o) } : DB
        ).findOrderById oid from rfl]
    rw [findOrderById_map_setStatus, horder]
    simp only [Option.map, if_pos hoid]
  · rw [findUserById_updateUserById _ order.userId
        (fun v => { v with credits :=
          v.credits + (order.metadataCredits.getD 0 : Nat) })
        (fun v => rfl) order.userId, hscrut, huser]
    simp only [Option.map, if_pos huid]
  · unfold DB.creditsOf
    rw [findUserById_updateUserById _ order.userId
        (fun v => { v with credits :=
          v.credits + (order.metadataCredits.getD 0 : Nat) })
        (fun v => rfl) order.userId, hscrut, huser]
    simp only [Option.map, if_pos huid]

/-- A valid-signature `checkout.session.completed` delivery routes to
`handleStripeCheckoutComplete` and answers 200 when it does not throw. -/
theorem stripeWebhook_checkout_ok (db : DB) (rs : RedisState)
    (oid : Option String)
    (hok : (handleStripeCheckoutComplete db rs oid).ok = true) :
    stripeWebhook db rs true (.checkoutSessionCompleted oid) =
      ⟨200, (handleStripeCheckoutComplete db rs oid).db,
            (handleStripeCheckoutComplete db rs oid).rs⟩ := by
  show (if (handleStripeCheckoutComplete db rs oid).ok then
      (⟨200, (handleStripeCheckoutComplete db rs oid).db,
        (handleStripeCheckoutComplete db rs oid).rs⟩ : WebhookResult)
    else ⟨500, (handleStripeCheckoutComplete db rs oid).db,
        (handleStripeCheckoutComplete db rs oid).rs⟩) = _
  rw [hok, if_pos rfl]

/-- A token-authenticated `PAYMENT_CONFIRMED` or `PAYMENT_RECEIVED`
delivery routes to `handleAsaasPaymentConfirmed` and answers 200 when it
does not throw. -/
theorem asaasWebhook_confirmed_ok (db : DB) (rs : RedisState)
    (tok : String) (pref sref : Option String) (ev : String)
    (hev : ev = "PAYMENT_CONFIRMED" ∨ ev = "PAYMENT_RECEIVED")
    (hok : (handleAsaasPaymentConfirmed db rs pref).ok = true) :
    asaasWebhook db rs (some tok) tok ev pref sref =
      ⟨200, (handleAsaasPaymentConfirmed db rs pref).db,
            (handleAsaasPaymentConfirmed db rs pref).rs⟩ := by
  have hne : ¬(some tok ≠ some tok) := by simp
  cases hev with
  | inl h =>
    subst h
    unfold asaasWebhook
    rw [if_neg hne]
    show (if (handleAsaasPaymentConfirmed db rs pref).ok then
        (⟨200, (handleAsaasPaymentConfirmed db rs pref).db,
          (handleAsaasPaymentConfirmed db rs pref).rs⟩ : WebhookResult)
      else ⟨500, (handleAsaasPaymentConfirmed db rs pref).db,
          (handleAsaasPaymentConfirmed db rs pref).rs⟩) = _
    rw [hok, if_pos rfl]
  | inr h =>
    subst h
    unfold asaasWebhook
    rw [if_neg hne]
    show (if (handleAsaasPaymentConfirmed db rs pref).ok then
        (⟨200, (handleAsaasPaymentConfirmed db rs pref).db,
          (handleAsaasPaymentConfirmed db rs pref).rs⟩ : WebhookResult)
      else ⟨500, (handleAsaasPaymentConfirmed db rs pref).db,
          (handleAsaasPaymentConfirmed db rs pref).rs⟩) = _
    rw [hok, if_pos rfl]

/-- C4 (confirmed): webhook processing is not idempotent with respect to
user credits.  For a credits order, every valid delivery of Stripe
`checkout.session.completed` — and likewise of Asaas `PAYMENT_CONFIRMED`
or `PAYMENT_RECEIVED` — answers 200 and increments the owning user's
balance by the order's credit amount, so a second delivery of the same
event increments the balance again: the post-state of two deliveries
differs from the post-state of one whenever the amount is positive. -/
theorem webhook_credits_not_idempotent :
    (∀ db rs oid order u,
      db.findOrderById oid = some order →
      order.type = "credits" →
      db.findUserById order.userId = some u →
      0 < order.metadataCredits.getD 0 →
      (stripeWebhook db rs true
        (.checkoutSessionCompleted (some oid))).status = 200 ∧
      (stripeWebhook db rs true
          (.checkoutSessionCompleted (some oid))).db.creditsOf
          order.userId =
        some (u.credits + ((order.metadataCredits.getD 0 : Nat) : Int)) ∧
      (stripeWebhook
          (stripeWebhook db rs true
            (.checkoutSessionCompleted (some oid))).db
          (stripeWebhook db rs true
            (.checkoutSessionCompleted (some oid))).rs
          true (.checkoutSessionCompleted (some oid))).db.creditsOf
          order.userId =
        some (u.credits + ((order.metadataCredits.getD 0 : Nat) : Int) +
          ((order.metadataCredits.getD 0 : Nat) : Int)) ∧
      (stripeWebhook
          (stripeWebhook db rs true
            (.checkoutSessionCompleted (some oid))).db
          (stripeWebhook db rs true
            (.checkoutSessionCompleted (some oid))).rs
          true (.checkoutSessionCompleted (some oid))).db.creditsOf
          order.userId ≠
        (stripeWebhook db rs true
          (.checkoutSessionCompleted (some oid))).db.creditsOf
          order.userId) ∧
    (∀ db rs tok pref ev, ev = "PAYMENT_CONFIRMED" ∨
        ev = "PAYMENT_RECEIVED" → ∀ oid order u,
      db.findOrderById oid = some order →
      order.type = "credits" →
      db.findUserById order.userId = some u →
      0 < order.metadataCredits.getD 0 →
      (asaasWebhook db rs (some tok) tok ev (some oid) pref).status =
        200 ∧
      (asaasWebhook db rs (some tok) tok ev (some oid) pref).db.creditsOf
          order.userId =
        some (u.credits + ((order.metadataCredits.getD 0 : Nat) : Int)) ∧
      (asaasWebhook
          (asaasWebhook db rs (some tok) tok ev (some oid) pref).db
          (asaasWebhook db rs (some tok) tok ev (some oid) pref).rs
          (some tok) tok ev (some oid) pref).db.creditsOf order.userId =
        some (u.credits + ((order.metadataCredits.getD 0 : Nat) : Int) +
          ((order.metadataCredits.getD 0 : Nat) : Int)) ∧
      (asaasWebhook
          (asaasWebhook db rs (some tok) tok ev (some oid) pref).db
          (asaasWebhook db rs (some tok) tok ev (some oid) pref).rs
          (some tok) tok ev (some oid) pref).db.creditsOf order.userId ≠
        (asaasWebhook db rs (some tok) tok ev (some oid) pref).db.creditsOf
          order.userId) := by
  constructor
  · intro db rs oid order u horder htype huser hpos
    have h1 := handleStripeCheckoutComplete_increments db rs oid order u
      horder htype huser
    have hw1 := stripeWebhook_checkout_ok db rs (some oid) h1.1
    have h2 := handleStripeCheckoutComplete_increments
      (handleStripeCheckoutComplete db rs (some oid)).db
      (handleStripeCheckoutComplete db rs (some oid)).rs oid
      { order with status := "completed" }
      { u with credits := u.credits + ((order.metadataCredits.getD 0 : Nat) : Int) }
      h1.2.1 htype h1.2.2.1
    have hw2 := stripeWebhook_checkout_ok
      (handleStripeCheckoutComplete db rs (some oid)).db
      (handleStripeCheckoutComplete db rs (some oid)).rs (some oid) h2.1
    refine ⟨by rw [hw1], ?_, ?_, ?_⟩
    · rw [hw1]
      exact h1.2.2.2
    · rw [hw1]
      show (stripeWebhook (handleStripeCheckoutComplete db rs (some oid)).db
        (handleStripeCheckoutComplete db rs (some oid)).rs true
        (.checkoutSessionCompleted (some oid))).db.creditsOf order.userId = _
      rw [hw2]
      exact h2.2.2.2
    · rw [hw1]
      show (stripeWebhook (handleStripeCheckoutComplete db rs (some oid)).db
        (handleStripeCheckoutComplete db rs (some oid)).rs true
        (.checkoutSessionCompleted (some oid))).db.creditsOf order.userId ≠ _
      rw [hw2, h1.2.2.2, h2.2.2.2]
      intro hcontra
      have h3 := Option.some.inj hcontra
      simp at h3
      omega
  · intro db rs tok pref ev hev oid order u horder htype huser hpos
    have h1 := handleAsaasPaymentConfirmed_increments db rs oid order u
      horder htype huser
    have hw1 := asaasWebhook_confirmed_ok db rs tok (some oid) pref ev
      hev h1.1
    have h2 := handleAsaasPaymentConfirmed_increments
      (handleAsaasPaymentConfirmed db rs (some oid)).db
      (handleAsaasPaymentConfirmed db rs (some oid)).rs oid
      { order with status := "completed" }
      { u with credits := u.credits + ((order.metadataCredits.getD 0 : Nat) : Int) }
      h1.2.1 htype h1.2.2.1
    have hw2 := asaasWebhook_confirmed_ok
      (handleAsaasPaymentConfirmed db rs (some oid)).db
      (handleAsaasPaymentConfirmed db rs (some oid)).rs tok (some oid)
      pref ev hev h2.1
    refine ⟨by rw [hw1], ?_, ?_, ?_⟩
    · rw [hw1]
      exact h1.2.2.2
    · rw [hw1]
      show (asaasWebhook (handleAsaasPaymentConfirmed db rs (some oid)).db
        (handleAsaasPaymentConfirmed db rs (some oid)).rs (some tok) tok
        ev (some oid) pref).db.creditsOf order.userId = _
      rw [hw2]
      exact h2.2.2.2
    · rw [hw1]
      show (asaasWebhook (handleAsaasPaymentConfirmed db rs (some oid)).db
        (handleAsaasPaymentConfirmed db rs (some oid)).rs (some tok) tok
        ev (some oid) pref).db.creditsOf order.userId ≠ _
      rw [hw2, h1.2.2.2, h2.2.2.2]
      intro hcontra
      have h3 := Option.some.inj hcontra
      simp at h3
      omega

/-- Fixture for C4: a completed-payment scenario with a 10-credit
order. -/
def orderDB : DB :=
  ⟨[⟨"u1", "kc1", "a@b.c", none, 3, none⟩],
   [⟨"o1", "u1", "credits", "pending", some 10⟩], [], [], [], []⟩

/-- C4 (witness): two identical Stripe deliveries at a concrete state
credit the user twice. -/
theorem webhook_credits_not_idempotent_witness :
    (orderDB.findOrderById "o1" =
      some ⟨"o1", "u1", "credits", "pending", some 10⟩ ∧
     orderDB.findUserById "u1" =
      some ⟨"u1", "kc1", "a@b.c", none, 3, none⟩ ∧
     (0 : Nat) < 10) ∧
    ((stripeWebhook orderDB RedisState.empty true
        (.checkoutSessionCompleted (some "o1"))).status = 200 ∧
     (stripeWebhook orderDB RedisState.empty true
        (.checkoutSessionCompleted (some "o1"))).db.creditsOf "u1" =
       some (3 + ((10 : Nat) : Int)) ∧
     (stripeWebhook
        (stripeWebhook orderDB RedisState.empty true
          (.checkoutSessionCompleted (some "o1"))).db
        (stripeWebhook orderDB RedisState.empty true
          (.checkoutSessionCompleted (some "o1"))).rs
        true (.checkoutSessionCompleted (some "o1"))).db.creditsOf "u1" =
       some (3 + ((10 : Nat) : Int) + ((10 : Nat) : Int)) ∧
     (stripeWebhook
        (stripeWebhook orderDB RedisState.empty true
          (.checkoutSessionCompleted (some "o1"))).db
        (stripeWebhook orderDB RedisState.empty true
          (.checkoutSessionCompleted (some "o1"))).rs
        true (.checkoutSessionCompleted (some "o1"))).db.creditsOf "u1" ≠
       (stripeWebhook orderDB RedisState.empty true
          (.checkoutSessionCompleted (some "o1"))).db.creditsOf "u1") :=
  ⟨⟨rfl, rfl, by decide⟩,
   webhook_credits_not_idempotent.1 orderDB RedisState.empty "o1"
     ⟨"o1", "u1", "credits", "pending", some 10⟩
     ⟨"u1", "kc1", "a@b.c", none, 3, none⟩ rfl rfl rfl (by decide)⟩

/-! ## Claim C6 -/

def emptyDB : DB := ⟨[], [], [], [], [], []⟩

/-- C6 (counterexample): a Stripe webhook delivery whose signature fails
verification is answered with HTTP 400 — not an auth-failure status
401/403 as claimed — though no database record is updated. -/
theorem stripeWebhook_badsig_400 :
    (stripeWebhook emptyDB RedisState.empty false
        (.checkoutSessionCompleted (some "o1"))).status = 400 ∧
    (stripeWebhook emptyDB RedisState.empty false
        (.checkoutSessionCompleted (some "o1"))).status ≠ 401 ∧
    (stripeWebhook emptyDB RedisState.empty false
        (.checkoutSessionCompleted (some "o1"))).status ≠ 403 ∧
    (stripeWebhook emptyDB RedisState.empty false
        (.checkoutSessionCompleted (some "o1"))).db = emptyDB :=
  ⟨rfl, by decide, by decide, rfl⟩

/-- C6 (amended): every request to a provider-signed webhook endpoint
whose signature or access token fails verification is rejected before
any database or Redis write — the Stripe endpoint with HTTP 400, the
Asaas endpoint with 401, and the N8N endpoint with 401 (or 500 when the
presented signature's length differs and `crypto.timingSafeEqual`
throws); in every such case the database state is returned unchanged. -/
theorem webhook_auth_failures_no_update :
    (∀ db rs ev, stripeWebhook db rs false ev = ⟨400, db, rs⟩) ∧
    (∀ db rs hdr tok ev pref sref, hdr ≠ some tok →
      asaasWebhook db rs hdr tok ev pref sref = ⟨401, db, rs⟩) ∧
    (∀ db rs exps sig jobId ss ou er now,
      verifyN8NSignature true exps sig = .ok false →
      n8nTransformationComplete db rs true exps sig jobId ss ou er now =
        ⟨401, db, rs⟩) ∧
    (∀ db rs exps sig jobId ss ou er now,
      verifyN8NSignature true exps sig = .error () →
      n8nTransformationComplete db rs true exps sig jobId ss ou er now =
        ⟨500, db, rs⟩) := by
  refine ⟨?_, ?_, ?_, ?_⟩
  · intro db rs ev
    rfl
  · intro db rs hdr tok ev pref sref h
    unfold asaasWebhook
    rw [if_pos h]
  · intro db rs exps sig jobId ss ou er now h
    simp only [n8nTransformationComplete, h]
  · intro db rs exps sig jobId ss ou er now h
    simp only [n8nTransformationComplete, h]

/-- C6 (witness): the rejection specification applied to a concrete
missing Asaas token and to concrete mismatched / length-mismatched N8N
signatures. -/
theorem webhook_auth_failures_no_update_witness :
    ((none : Option String) ≠ some "tok" ∧
      asaasWebhook emptyDB RedisState.empty none "tok" "PAYMENT_CONFIRMED"
        (some "o1") none = ⟨401, emptyDB, RedisState.empty⟩) ∧
    (verifyN8NSignature true "aa" (some "bb") = .ok false ∧
      n8nTransformationComplete emptyDB RedisState.empty true "aa"
        (some "bb") "j1" true none none 0 =
        ⟨401, emptyDB, RedisState.empty⟩) ∧
    (verifyN8NSignature true "aa" (some "b") = .error () ∧
      n8nTransformationComplete emptyDB RedisState.empty true "aa"
        (some "b") "j1" true none none 0 =
        ⟨500, emptyDB, RedisState.empty⟩) :=
  ⟨⟨by decide,
    webhook_auth_failures_no_update.2.1 emptyDB RedisState.empty none
      "tok" "PAYMENT_CONFIRMED" (some "o1") none (by decide)⟩,
   ⟨rfl,
    webhook_auth_failures_no_update.2.2.1 emptyDB RedisState.empty "aa"
      (some "bb") "j1" true none none 0 rfl⟩,
   ⟨rfl,
    webhook_auth_failures_no_update.2.2.2 emptyDB RedisState.empty "aa"
      (some "b") "j1" true none none 0 rfl⟩⟩

/-! ## Password-reset and account-reactivation token confirmation
(`src/services/password.reset.service.ts`,
`src/services/account.reactivation.service.ts`)

JavaScript string primitives on the presented token are embedded as
structurally recursive functions on the character list: `split('.')`
is `splitOnDot`, `indexOf('.')`/`slice` is `firstDotSplit`, and
`trim()` is `trimChars`.  `bcrypt.compare` is the oracle parameter
`bcryptCompare`; `Date.now()` is `now`.  The Keycloak calls
(`keycloakResetPassword`, `keycloakEnableUser`) are external and have
no database effect. -/

/-- `s.split('.')` on the character list. -/
def splitCharsOnDot : List Char → List (List Char)
  | [] => [[]]
  | c :: cs =>
    let rest := splitCharsOnDot cs
    if c = '.' then [] :: rest
    else
      match rest with
      | [] => [[c]]
      | r :: rs => (c :: r) :: rs

/-- `token.split('.')`. -/
def splitOnDot (s : String) : List String :=
  (splitCharsOnDot s.data).map (fun cs => ⟨cs⟩)

/-- `raw.indexOf('.')` combined with the two slices: the characters
before the first dot and the characters after it, or `none` when the
string has no dot. -/
def firstDotSplit : List Char → Option (List Char × List Char)
  | [] => none
  | c :: cs =>
    if c = '.' then some ([], cs)
    else
      match firstDotSplit cs with
      | none => none
      | some (a, b) => some (c :: a, b)

/-- `token.trim()`. -/
def trimChars (s : String) : String :=
  ⟨((s.data.dropWhile Char.isWhitespace).reverse.dropWhile
      Char.isWhitespace).reverse⟩

/-- `confirmPasswordReset(token, newPassword)`: parse `"<id>.<secret>"`
(destructuring the first two segments of `split('.')`), load the token
row, and throw `INVALID_TOKEN` when the row is absent, already used,
expired, owned by a soft-deleted user, or the secret does not match the
stored bcrypt hash (a dangling user reference — impossible under the
schema's foreign-key constraint — is modelled as the same error); on
success mark the row used, then reset the password in Keycloak
(external). -/
def confirmPasswordReset (db : DB)
    (bcryptCompare : String → String → Bool) (now : Nat) (token : String)
    (newPassword : String) : Except String DB :=
  let id := (splitOnDot token).getD 0 ""
  let secret := (splitOnDot token).getD 1 ""
  if id = "" ∨ secret = "" then .error "INVALID_TOKEN"
  else
    match db.passwordResetTokens.find? (fun r => r.id == id) with
    | none => .error "INVALID_TOKEN"
    | some record =>
      if record.usedAt.isSome then .error "INVALID_TOKEN"
      else if record.expiresAt < now then .error "INVALID_TOKEN"
      else
        match db.users.find? (fun v => v.id == record.userId) with
        | none => .error "INVALID_TOKEN"
        | some user =>
          if user.deletedAt.isSome then .error "INVALID_TOKEN"
          else if !(bcryptCompare secret record.tokenHash) then
            .error "INVALID_TOKEN"
          else
            .ok { db with passwordResetTokens :=
              db.passwordResetTokens.map (fun r =>
                if r.id == record.id then { r with usedAt := some now }
                else r) }

/-- `confirmReactivation(token)`: trim, split at the *first* dot
(`indexOf`), and throw `INVALID_TOKEN` when there is no dot or it is at
position 0, the secret is empty, the row is absent, already used,
expired, or the owning user is *not* soft-deleted, or the secret does
not match; on success enable the user in Keycloak (external) and, in a
transaction, mark the token used and clear the user's `deletedAt`. -/
def confirmReactivation (db : DB)
    (bcryptCompare : String → String → Bool) (now : Nat)
    (token : String) : Except String DB :=
  match firstDotSplit (trimChars token).data with
  | none => .error "INVALID_TOKEN"
  | some (idc, secc) =>
    if idc = [] then .error "INVALID_TOKEN"
    else
      let id : String := ⟨idc⟩
      let secret : String := ⟨secc⟩
      if secret = "" then .error "INVALID_TOKEN"
      else
        match db.accountReactivationTokens.find? (fun r => r.id == id) with
        | none => .error "INVALID_TOKEN"
        | some record =>
          if record.usedAt.isSome then .error "INVALID_TOKEN"
          else if record.expiresAt < now then .error "INVALID_TOKEN"
          else
            match db.users.find? (fun v => v.id == record.userId) with
            | none => .error "INVALID_TOKEN"
            | some user =>
              if user.deletedAt.isNone then .error "INVALID_TOKEN"
              else if !(bcryptCompare secret record.tokenHash) then
                .error "INVALID_TOKEN"
              else
                .ok { db with
                  accountReactivationTokens :=
                    db.accountReactivationTokens.map (fun r =>
                      if r.id == record.id then
                        { r with usedAt := some now }
                      else r),
                  users := db.users.map (fun v =>
                    if v.id == record.userId then
                      { v with deletedAt := none }
                    else v) }

/-! ## Claim C5 -/

/-- A per-id token-row update never changes which rows an id-based
predicate selects. -/
theorem tokenUpdate_id_pred (g : TokenRecord → TokenRecord)
    (hg : ∀ r, (g r).id = r.id) (target uid : String) :
    ∀ r : TokenRecord,
      ((if r.id == target then g r else r).id == uid) = (r.id == uid) := by
  intro r
  by_cases h : (r.id == target) = true
  · rw [if_pos h, hg]
  · rw [if_neg h]

/-- C5 (confirmed): reset/reactivation tokens are single-use,
hashed-secret and time-limited.  `confirmPasswordReset` and
`confirmReactivation` throw `INVALID_TOKEN` whenever the referenced
token row is absent, already used (`usedAt` set), expired
(`expiresAt < now`) or the presented secret fails the bcrypt comparison;
a successful confirmation marks the row used, and a second confirmation
of the same token always fails, for any later time and any comparison
oracle. -/
theorem token_confirmation_single_use :
    (∀ db cmp now token pw,
      (match db.passwordResetTokens.find?
          (fun r => r.id == (splitOnDot token).getD 0 "") with
       | none => True
       | some r => r.usedAt.isSome = true ∨ r.expiresAt < now ∨
           cmp ((splitOnDot token).getD 1 "") r.tokenHash = false) →
      confirmPasswordReset db cmp now token pw = .error "INVALID_TOKEN") ∧
    (∀ db cmp now token pw db',
      confirmPasswordReset db cmp now token pw = .ok db' →
      (∃ r, db'.passwordResetTokens.find?
          (fun r => r.id == (splitOnDot token).getD 0 "") = some r ∧
        r.usedAt = some now) ∧
      (∀ cmp' now' pw', confirmPasswordReset db' cmp' now' token pw' =
        .error "INVALID_TOKEN")) ∧
    (∀ db cmp now token idc secc,
      firstDotSplit (trimChars token).data = some (idc, secc) →
      (match db.accountReactivationTokens.find?
          (fun r => r.id == (⟨idc⟩ : String)) with
       | none => True
       | some r => r.usedAt.isSome = true ∨ r.expiresAt < now ∨
           cmp (⟨secc⟩ : String) r.tokenHash = false) →
      confirmReactivation db cmp now token = .error "INVALID_TOKEN") ∧
    (∀ db cmp now token,
      firstDotSplit (trimChars token).data = none →
      confirmReactivation db cmp now token = .error "INVALID_TOKEN") ∧
    (∀ db cmp now token db',
      confirmReactivation db cmp now token = .ok db' →
      ∀ cmp' now', confirmReactivation db' cmp' now' token =
        .error "INVALID_TOKEN") := by
  refine ⟨?_, ?_, ?_, ?_, ?_⟩
  · intro db cmp now token pw h
    simp only [confirmPasswordReset]
    split
    · rfl
    · split
      · rfl
      · rename_i hne r hfind
        simp only [hfind] at h
        split
        · rfl
        · split
          · rfl
          · rename_i hused hexp
            rcases h with h1 | h1 | h1
            · exact absurd h1 hused
            · exact absurd h1 hexp
            · split
              · rfl
              · split
                · rfl
                · rw [h1]
                  rfl
  · intro db cmp now token pw db' h
    simp only [confirmPasswordReset] at h
    split at h
    · exact absurd h (by simp)
    · rename_i hne0
      split at h
      · exact absurd h (by simp)
      · rename_i r hfind
        split at h
        · exact absurd h (by simp)
        · rename_i hused
          split at h
          · exact absurd h (by simp)
          · rename_i hexp
            split at h
            · exact absurd h (by simp)
            · rename_i user hu
              split at h
              · exact absurd h (by simp)
              · rename_i hdel
                split at h
                · exact absurd h (by simp)
                · rename_i hcmp
                  injection h with h'
                  subst h'
                  have hmap : (db.passwordResetTokens.map (fun x =>
                      if x.id == r.id then { x with usedAt := some now }
                      else x)).find?
                      (fun x => x.id == (splitOnDot token).getD 0 "") =
                      some (if r.id == r.id then
                        { r with usedAt := some now } else r) := by
                    rw [find?_map_pred_invariant _ _ _
                      (tokenUpdate_id_pred
                        (fun x => { x with usedAt := some now })
                        (fun x => rfl) r.id
                        ((splitOnDot token).getD 0 "")), hfind]
                    rfl
                  constructor
                  · exact ⟨_, hmap, by simp⟩
                  · intro cmp' now' pw'
                    simp only [confirmPasswordReset]
                    rw [if_neg hne0]
                    simp only [hmap]
                    simp
  · intro db cmp now token idc secc hsplit h
    simp only [confirmReactivation, hsplit]
    split
    · rfl
    · rename_i hid
      split
      · rfl
      · rename_i hsec
        split
        · rfl
        · rename_i r hfind
          simp only [hfind] at h
          split
          · rfl
          · split
            · rfl
            · rename_i hused hexp
              rcases h with h1 | h1 | h1
              · exact absurd h1 hused
              · exact absurd h1 hexp
              · split
                · rfl
                · split
                  · rfl
                  · rw [h1]
                    rfl
  · intro db cmp now token hsplit
    simp only [confirmReactivation, hsplit]
  · intro db cmp now token db' h
    simp only [confirmReactivation] at h
    split at h
    · exact absurd h (by simp)
    · rename_i idc secc hsplit
      split at h
      · exact absurd h (by simp)
      · rename_i hid
        split at h
        · exact absurd h (by simp)
        · rename_i hsec
          split at h
          · exact absurd h (by simp)
          · rename_i r hfind
            split at h
            · exact absurd h (by simp)
            · rename_i hused
              split at h
              · exact absurd h (by simp)
              · rename_i hexp
                split at h
                · exact absurd h (by simp)
                · rename_i user hu
                  split at h
                  · exact absurd h (by simp)
                  · rename_i hdel
                    split at h
                    · exact absurd h (by simp)
                    · rename_i hcmp
                      injection h with h'
                      subst h'
                      intro cmp' now'
                      have hmap : (db.accountReactivationTokens.map
                          (fun x => if x.id == r.id then
                            { x with usedAt := some now } else x)).find?
                          (fun x => x.id == (⟨idc⟩ : String)) =
                          some (if r.id == r.id then
                            { r with usedAt := some now } else r) := by
                        rw [find?_map_pred_invariant _ _ _
                          (tokenUpdate_id_pred
                            (fun x => { x with usedAt := some now })
                            (fun x => rfl) r.id (⟨idc⟩ : String)), hfind]
                        rfl
                      simp only [confirmReactivation, hsplit]
                      rw [if_neg hid]
                      rw [if_neg hsec]
                      simp only [hmap]
                      simp

/-- Fixture for C5: one unused reset token (`"t1"`, secret `"sekrit"`,
expiring at 100) for a live user. -/
def resetDB : DB :=
  ⟨[⟨"u1", "kc1", "a@b.c", none, 3, none⟩], [], [], [],
   [⟨"t1", "u1", "sekrit", 100, none⟩], []⟩

/-- The same database after the token has been consumed at time 50. -/
def resetDBAfter : DB :=
  ⟨[⟨"u1", "kc1", "a@b.c", none, 3, none⟩], [], [], [],
   [⟨"t1", "u1", "sekrit", 100, some 50⟩], []⟩

/-- C5 (witness): the single-use specification applied to a concrete
token — confirming at time 50 succeeds and marks the row used, an
expired attempt at time 200 fails, and any second confirmation fails. -/
theorem token_confirmation_single_use_witness :
    (confirmPasswordReset resetDB (fun s h => s == h) 50 "t1.sekrit"
      "npw" = .ok resetDBAfter) ∧
    (confirmPasswordReset resetDB (fun s h => s == h) 200 "t1.sekrit"
      "npw" = .error "INVALID_TOKEN") ∧
    ((∃ r, resetDBAfter.passwordResetTokens.find?
        (fun r => r.id == (splitOnDot "t1.sekrit").getD 0 "") = some r ∧
        r.usedAt = some 50) ∧
     (∀ cmp' now' pw', confirmPasswordReset resetDBAfter cmp' now'
        "t1.sekrit" pw' = .error "INVALID_TOKEN")) :=
  ⟨rfl,
   token_confirmation_single_use.1 resetDB (fun s h => s == h) 200
     "t1.sekrit" "npw" (Or.inr (Or.inl (by decide))),
   token_confirmation_single_use.2.1 resetDB (fun s h => s == h) 50
     "t1.sekrit" "npw" resetDBAfter rfl⟩

/-! ## `POST /api/auth/logout` (`src/routes/auth.routes.ts`) and
`keycloakDisableAndLogoutUser`
(`src/services/keycloak.admin.service.ts`) -/

/-- Result of the logout endpoint: HTTP status, the JSON `message`, and
whether the Keycloak logout endpoint was called. -/
structure LogoutResult where
  status : Nat
  message : String
  keycloakCalled : Bool
deriving DecidableEq

/-- JavaScript truthiness of the optional `refreshToken` body field
(absent and the empty string are falsy). -/
def isTruthy : Option String → Bool
  | none => false
  | some s => !(s == "")

/-- `POST /api/auth/logout`: call the Keycloak logout endpoint only when
a truthy `refreshToken` is supplied; `kcLogoutThrows` says whether that
call rejects, and the catch swallows the failure, returning the same
success response either way. -/
def authLogout (refreshToken : Option String) (kcLogoutThrows : Bool) :
    LogoutResult :=
  if isTruthy refreshToken then
    if kcLogoutThrows then
      ⟨200, "Logged out successfully", true⟩
    else
      ⟨200, "Logged out successfully", true⟩
  else
    ⟨200, "Logged out successfully", false⟩

/-- `keycloakDisableAndLogoutUser`: try the admin logout (failure
ignored), then the admin disable (failure surfaced as
`KEYCLOAK_DISABLE_FAILED`). -/
def keycloakDisableAndLogoutUser (logoutThrows disableThrows : Bool) :
    Except String Unit :=
  let _logoutOutcome : Except Unit Unit :=
    if logoutThrows then .error () else .ok ()
  if disableThrows then .error "KEYCLOAK_DISABLE_FAILED" else .ok ()

/-! ## Claim C8 -/

/-- C8 (confirmed): `POST /api/auth/logout` responds 200 with message
`Logged out successfully` for every request — the Keycloak call is
skipped when no (truthy) refresh token is supplied, and a Keycloak
failure is swallowed without changing the response; similarly
`keycloakDisableAndLogoutUser` ignores a logout failure and fails with
`KEYCLOAK_DISABLE_FAILED` exactly when the disable call fails. -/
theorem authLogout_always_success :
    (∀ rt t, (authLogout rt t).status = 200 ∧
      (authLogout rt t).message = "Logged out successfully") ∧
    (∀ rt t, isTruthy rt = false →
      (authLogout rt t).keycloakCalled = false) ∧
    (∀ rt, authLogout rt true = authLogout rt false) ∧
    (∀ lt, keycloakDisableAndLogoutUser lt false = .ok ()) ∧
    (∀ lt, keycloakDisableAndLogoutUser lt true =
      .error "KEYCLOAK_DISABLE_FAILED") := by
  refine ⟨?_, ?_, ?_, ?_, ?_⟩
  · intro rt t
    unfold authLogout
    by_cases h : isTruthy rt = true
    · rw [if_pos h]
      cases t <;> exact ⟨rfl, rfl⟩
    · rw [if_neg h]
      exact ⟨rfl, rfl⟩
  · intro rt t h
    unfold authLogout
    rw [h]
    cases t <;> rfl
  · intro rt
    unfold authLogout
    by_cases h : isTruthy rt = true
    · rw [if_pos h, if_pos h]
      rfl
    · rw [if_neg h, if_neg h]
  · intro lt
    rfl
  · intro lt
    rfl

/-- C8 (witness): the logout specification applied to a request with no
refresh token. -/
theorem authLogout_always_success_witness :
    (isTruthy none = false) ∧
    (authLogout none true).keycloakCalled = false ∧
    ((authLogout none true).status = 200 ∧
      (authLogout none true).message = "Logged out successfully") :=
  ⟨rfl, authLogout_always_success.2.1 none true rfl,
   authLogout_always_success.1 none true⟩

/-! ## `GET /api/users/me` (`src/routes/user.routes.ts`) -/

/-- The authenticated token user placed on `req.user` by the
middleware. -/
structure AuthUser where
  id : String
  email : String
  name : String
  roles : List String
  isAdmin : Bool
deriving DecidableEq

structure UsersMeResult where
  status : Nat
  credits : Option Int
  db : DB

/-- `GET /api/users/me`: block soft-deleted users with 403; on first
login (no row for the token's Keycloak id) create the row with 3 free
credits, provided the token carries an email (400 otherwise); then
return the profile.  `freshId` is the id the database generates for a
created row. -/
def getUsersMe (db : DB) (tok : AuthUser) (freshId : String) :
    UsersMeResult :=
  match db.findUserByKeycloakId tok.id with
  | some user =>
    if user.deletedAt.isSome then ⟨403, none, db⟩
    else ⟨200, some user.credits, db⟩
  | none =>
    if tok.email == "" then ⟨400, none, db⟩
    else
      ⟨200, some 3,
       { db with users := db.users ++
         [⟨freshId, tok.id, tok.email, some tok.name, 3, none⟩] }⟩

/-! ## Claim C9 -/

/-- C9 (confirmed): on first login `GET /api/users/me` creates the
user's row with exactly 3 free credits (provided the token carries an
email) and responds with that balance; the created row is then found by
the token's Keycloak id, and every subsequent call returns the existing
balance and leaves the user table unchanged. -/
theorem getUsersMe_first_login_three_credits :
    (∀ db tok freshId, db.findUserByKeycloakId tok.id = none →
      tok.email ≠ "" →
      (getUsersMe db tok freshId).status = 200 ∧
      (getUsersMe db tok freshId).credits = some 3 ∧
      (getUsersMe db tok freshId).db.users =
        db.users ++
          [⟨freshId, tok.id, tok.email, some tok.name, 3, none⟩]) ∧
    (∀ db tok freshId u, db.findUserByKeycloakId tok.id = some u →
      u.deletedAt = none →
      (getUsersMe db tok freshId).status = 200 ∧
      (getUsersMe db tok freshId).credits = some u.credits ∧
      (getUsersMe db tok freshId).db = db) ∧
    (∀ db tok freshId, db.findUserByKeycloakId tok.id = none →
      tok.email ≠ "" →
      (getUsersMe db tok freshId).db.findUserByKeycloakId tok.id =
        some ⟨freshId, tok.id, tok.email, some tok.name, 3, none⟩) ∧
    (∀ db tok freshId freshId2, db.findUserByKeycloakId tok.id = none →
      tok.email ≠ "" →
      (getUsersMe (getUsersMe db tok freshId).db tok freshId2).credits =
        some 3 ∧
      (getUsersMe (getUsersMe db tok freshId).db tok freshId2).db =
        (getUsersMe db tok freshId).db) := by
  have hcreate : ∀ db (tok : AuthUser) freshId,
      db.findUserByKeycloakId tok.id = none → tok.email ≠ "" →
      getUsersMe db tok freshId =
        ⟨200, some 3,
         { db with users := db.users ++
           [⟨freshId, tok.id, tok.email, some tok.name, 3, none⟩] }⟩ := by
    intro db tok freshId hfind hemail
    have hemail' : (tok.email == "") = false := by simp [hemail]
    simp [getUsersMe, hfind, hemail']
  have hfound : ∀ db (tok : AuthUser) freshId,
      db.findUserByKeycloakId tok.id = none → tok.email ≠ "" →
      (getUsersMe db tok freshId).db.findUserByKeycloakId tok.id =
        some ⟨freshId, tok.id, tok.email, some tok.name, 3, none⟩ := by
    intro db tok freshId hfind hemail
    rw [hcreate db tok freshId hfind hemail]
    show ({ db with users := db.users ++ [_] } : DB).findUserByKeycloakId
      tok.id = _
    unfold DB.findUserByKeycloakId at hfind ⊢
    rw [List.find?_append, hfind]
    simp [List.find?]
  have hexisting : ∀ db (tok : AuthUser) freshId u,
      db.findUserByKeycloakId tok.id = some u → u.deletedAt = none →
      (getUsersMe db tok freshId).status = 200 ∧
      (getUsersMe db tok freshId).credits = some u.credits ∧
      (getUsersMe db tok freshId).db = db := by
    intro db tok freshId u hfind hdel
    simp [getUsersMe, hfind, hdel]
  refine ⟨?_, hexisting, hfound, ?_⟩
  · intro db tok freshId hfind hemail
    rw [hcreate db tok freshId hfind hemail]
    exact ⟨rfl, rfl, rfl⟩
  · intro db tok freshId freshId2 hfind hemail
    have h2 := hfound db tok freshId hfind hemail
    have h3 := hexisting _ tok freshId2 _ h2 rfl
    exact ⟨h3.2.1, h3.2.2⟩

/-- Fixture for C9: an empty user table and a token carrying an
email. -/
def firstLoginTok : AuthUser := ⟨"kc9", "x@y.z", "X", [], false⟩

/-- C9 (witness): the first-login specification applied to an empty
database. -/
theorem getUsersMe_first_login_three_credits_witness :
    (emptyDB.findUserByKeycloakId firstLoginTok.id = none ∧
      firstLoginTok.email ≠ "") ∧
    ((getUsersMe emptyDB firstLoginTok "u9").status = 200 ∧
      (getUsersMe emptyDB firstLoginTok "u9").credits = some 3 ∧
      (getUsersMe emptyDB firstLoginTok "u9").db.users =
        emptyDB.users ++
          [⟨"u9", firstLoginTok.id, firstLoginTok.email,
            some firstLoginTok.name, 3, none⟩]) ∧
    ((getUsersMe (getUsersMe emptyDB firstLoginTok "u9").db firstLoginTok
        "u9b").credits = some 3 ∧
      (getUsersMe (getUsersMe emptyDB firstLoginTok "u9").db firstLoginTok
        "u9b").db = (getUsersMe emptyDB firstLoginTok "u9").db) :=
  ⟨⟨rfl, by decide⟩,
   getUsersMe_first_login_three_credits.1 emptyDB firstLoginTok "u9" rfl
     (by decide),
   getUsersMe_first_login_three_credits.2.2.2 emptyDB firstLoginTok "u9"
     "u9b" rfl (by decide)⟩

/-! ## `keycloakMiddleware` (`src/middleware/keycloak.ts`) -/

/-- A cached `auth:v1:<token>` entry: the built user object, the
`blocked` flag, and the absolute expiry of the 60-second TTL. -/
structure AuthCacheEntry where
  token : String
  user : AuthUser
  blocked : Bool
  expiresAt : Nat
deriving DecidableEq

/-- Redis `get auth:v1:<token>` at time `now`: the unexpired entry for
the token, if any. -/
def authCacheGet (cache : List AuthCacheEntry) (now : Nat)
    (token : String) : Option AuthCacheEntry :=
  cache.find? (fun e => e.token == token && decide (now < e.expiresAt))

inductive MiddlewareOutcome where
  | respond (status : Nat)
  | proceed (user : AuthUser)
deriving DecidableEq

/-- `keycloakMiddleware`: 401 without a bearer token; an unexpired
cached verdict short-circuits (403 when `blocked`, otherwise the route
handler runs with the cached user); on a cache miss the token is
introspected (`none` = inactive, 401), the soft-delete flag is read from
the database, the verdict is cached for 60 seconds (`EX 60`), and a
blocked user is answered 403 without running the handler. -/
def keycloakMiddleware (db : DB) (cache : List AuthCacheEntry)
    (now : Nat) (bearer : Option String)
    (introspection : Option AuthUser) :
    MiddlewareOutcome × List AuthCacheEntry :=
  match bearer with
  | none => (.respond 401, cache)
  | some token =>
    match authCacheGet cache now token with
    | some entry =>
      if entry.blocked then (.respond 403, cache)
      else (.proceed entry.user, cache)
    | none =>
      match introspection with
      | none => (.respond 401, cache)
      | some user =>
        let blocked :=
          match db.findUserByKeycloakId user.id with
          | some dbUser => dbUser.deletedAt.isSome
          | none => false
        let cache2 : List AuthCacheEntry :=
          ⟨token, user, blocked, now + 60⟩ :: cache
        if blocked then (.respond 403, cache2)
        else (.proceed user, cache2)

/-! ## Claim C10 -/

/-- Fixture for C10: a soft-deleted user (`deletedAt = 5`) whose token
was cached as not blocked before the deletion (entry unexpired at time
10). -/
def deletedUserDB : DB :=
  ⟨[⟨"u1", "kc1", "a@b.c", none, 3, some 5⟩], [], [], [], [], []⟩

def staleAuthUser : AuthUser := ⟨"kc1", "a@b.c", "A", [], false⟩

def staleCache : List AuthCacheEntry :=
  [⟨"tok1", staleAuthUser, false, 100⟩]

/-- C10 (counterexample): with the user's database row soft-deleted
(`deletedAt` set) but an unexpired cached verdict `blocked = false` for
the bearer token (written before the deletion, within its 60-second
TTL), `keycloakMiddleware` proceeds to the route handler instead of
responding 403 — so a soft-deleted account is *not* blocked on every
authenticated request. -/
theorem keycloakMiddleware_stale_cache_proceeds :
    (deletedUserDB.findUserByKeycloakId "kc1").map (·.deletedAt) =
      some (some 5) ∧
    (keycloakMiddleware deletedUserDB staleCache 10 (some "tok1")
      (some staleAuthUser)).1 = .proceed staleAuthUser :=
  ⟨rfl, rfl⟩

/-- C10 (amended): whenever the middleware actually consults the
database — that is, when no unexpired cache entry exists for the bearer
token — a soft-deleted user's request is answered 403 and the route
handler never runs, the 403 verdict being cached for 60 seconds; a
cached `blocked` verdict is also answered 403; but a stale cached
non-blocked verdict (up to 60 seconds old) lets the request through
even though `deletedAt` is set. -/
theorem keycloakMiddleware_blocks_on_db_check :
    (∀ db cache now token iu u,
      authCacheGet cache now token = none →
      db.findUserByKeycloakId iu.id = some u →
      u.deletedAt.isSome = true →
      (keycloakMiddleware db cache now (some token) (some iu)).1 =
        .respond 403 ∧
      (keycloakMiddleware db cache now (some token) (some iu)).2 =
        ⟨token, iu, true, now + 60⟩ :: cache) ∧
    (∀ db cache now token iu entry,
      authCacheGet cache now token = some entry →
      entry.blocked = true →
      (keycloakMiddleware db cache now (some token) iu).1 =
        .respond 403) ∧
    (∀ db cache now iu,
      (keycloakMiddleware db cache now none iu).1 = .respond 401) := by
  refine ⟨?_, ?_, ?_⟩
  · intro db cache now token iu u hmiss hfind hdel
    constructor <;>
      simp [keycloakMiddleware, hmiss, hfind, hdel]
  · intro db cache now token iu entry hhit hblocked
    simp [keycloakMiddleware, hhit, hblocked]
  · intro db cache now iu
    rfl

/-- C10 (witness): the database-consulting path applied to the concrete
soft-deleted user with an empty cache. -/
theorem keycloakMiddleware_blocks_on_db_check_witness :
    (authCacheGet [] 10 "tok1" = none ∧
      deletedUserDB.findUserByKeycloakId staleAuthUser.id =
        some ⟨"u1", "kc1", "a@b.c", none, 3, some 5⟩ ∧
      (Option.some 5).isSome = true) ∧
    ((keycloakMiddleware deletedUserDB [] 10 (some "tok1")
        (some staleAuthUser)).1 = .respond 403 ∧
      (keycloakMiddleware deletedUserDB [] 10 (some "tok1")
        (some staleAuthUser)).2 =
        ⟨"tok1", staleAuthUser, true, 10 + 60⟩ :: []) :=
  ⟨⟨rfl, rfl, rfl⟩,
   keycloakMiddleware_blocks_on_db_check.1 deletedUserDB [] 10 "tok1"
     staleAuthUser ⟨"u1", "kc1", "a@b.c", none, 3, some 5⟩ rfl rfl rfl⟩

end Artifyme
